import Mathlib

/-!
Verification development for the tool-calling form-filling agent of
`application-filler-extension` (src/form-filling-tools.js, with the popup.js
variant consulted where the claims cite it).

The JavaScript source is shallowly embedded: the class state of
`FormFillingTools` becomes an explicit `ToolsState` record, the mutable
locals of `handleAgentResponse` become the `LoopState` record threaded
through a step function, and the model transport (an external collaborator)
becomes a function `Nat → Except String AgentResponse` where `.error`
models a thrown transport exception.  JavaScript regular-expression
operations are embedded as bespoke total matchers over `List Char`, one per
regex literal of the source, implementing the leftmost-match/greedy/lazy
behaviour of that literal.  `JSON.parse` / `JSON.stringify` are embedded by
a fuel-based JSON parser and printer (integers only, basic string escapes;
the payloads exchanged by this program are flat objects of strings and
small integers).
-/

set_option maxHeartbeats 4000000
set_option maxRecDepth 8000

namespace AppFiller

abbrev Chars := List Char

def strChars (s : String) : Chars := s.data

def charsStr (l : Chars) : String := String.mk l

/-- JS `\s` whitespace (the ASCII subset that occurs in this repository). -/
def isWsChar (c : Char) : Bool := c = ' ' || c = '\t' || c = '\n' || c = '\r'

def isDigitChar (c : Char) : Bool := '0' ≤ c && c ≤ '9'

def isLowerChar (c : Char) : Bool := 'a' ≤ c && c ≤ 'z'

def isUpperChar (c : Char) : Bool := 'A' ≤ c && c ≤ 'Z'

def isAlphaChar (c : Char) : Bool := isLowerChar c || isUpperChar c

/-- JS `\w`. -/
def isWordChar (c : Char) : Bool := isAlphaChar c || isDigitChar c || c = '_'

def lowerChar (c : Char) : Char := if isUpperChar c then Char.ofNat (c.toNat + 32) else c

def lowerChars (l : Chars) : Chars := l.map lowerChar

def upperChar (c : Char) : Char := if isLowerChar c then Char.ofNat (c.toNat - 32) else c

def upperChars (l : Chars) : Chars := l.map upperChar

/-- The opening brace character, by code point. -/
def lbrace : Char := Char.ofNat 123

/-- The closing brace character, by code point. -/
def rbrace : Char := Char.ofNat 125

/-- The single-quote character, by code point. -/
def squote : Char := Char.ofNat 39

/-- Does `pat` occur as a prefix of `text`? (case-sensitive) -/
def isStartOf : Chars → Chars → Bool
  | [], _ => true
  | _ :: _, [] => false
  | p :: ps, c :: cs => p = c && isStartOf ps cs

/-- Does `pat` occur as a prefix of `text`, case-insensitively? -/
def isStartOfCI : Chars → Chars → Bool
  | [], _ => true
  | _ :: _, [] => false
  | p :: ps, c :: cs => lowerChar p = lowerChar c && isStartOfCI ps cs

/-- Index of the first occurrence of `pat` in `text` (case-sensitive). -/
def findSub (pat : Chars) : Chars → Option Nat
  | [] => if pat.isEmpty then some 0 else none
  | c :: cs =>
    if isStartOf pat (c :: cs) then some 0
    else (findSub pat cs).map (· + 1)

/-- Index of the first occurrence of `pat` in `text`, case-insensitively. -/
def findSubCI (pat : Chars) : Chars → Option Nat
  | [] => if pat.isEmpty then some 0 else none
  | c :: cs =>
    if isStartOfCI pat (c :: cs) then some 0
    else (findSubCI pat cs).map (· + 1)

/-- All start indices of (possibly overlapping) occurrences of `pat`, ascending. -/
def allSubIdx (pat : Chars) (text : Chars) : List Nat :=
  (List.range (text.length + 1)).filter (fun i => isStartOf pat (text.drop i))

/-- All start indices of case-insensitive occurrences of `pat`, ascending. -/
def allSubIdxCI (pat : Chars) (text : Chars) : List Nat :=
  (List.range (text.length + 1)).filter (fun i => isStartOfCI pat (text.drop i))

/-- `text.substring a b` — the characters at indices `[a, b)`. -/
def sliceC (text : Chars) (a b : Nat) : Chars := (text.drop a).take (b - a)

/-- Length of the maximal run of characters satisfying `p` at index `i`. -/
def runLen (p : Char → Bool) (text : Chars) (i : Nat) : Nat :=
  ((text.drop i).takeWhile p).length

/-- Models JS `String.prototype.trim` for the embedded strings. -/
def trimC (l : Chars) : Chars :=
  ((l.dropWhile isWsChar).reverse.dropWhile isWsChar).reverse

def trimS (s : String) : String := charsStr (trimC (strChars s))

/-- Models JS `String.prototype.includes`. -/
def includesS (text pat : String) : Bool := (findSub (strChars pat) (strChars text)).isSome

/-- Models `text.toLowerCase().includes(pat)` style checks. -/
def includesCI (text pat : String) : Bool := (findSubCI (strChars pat) (strChars text)).isSome

/-- Models `new RegExp(query, 'i').test(line)` for a metacharacter-free
`query`: case-insensitive substring containment (the queries this program
feeds to `RegExp` are plain words). -/
def regexTestCI (pat line : String) : Bool := includesCI line pat

/-- Models JS `String.prototype.split('\n')`. -/
def splitNl (s : String) : List String :=
  (splitNlC (strChars s)).map charsStr
where
  splitNlC : Chars → List Chars
    | [] => [[]]
    | c :: cs =>
      if c = '\n' then [] :: splitNlC cs
      else match splitNlC cs with
        | [] => [[c]]
        | l :: ls => (c :: l) :: ls

/-- JSON values, as produced by the embedded `JSON.parse`. -/
inductive JVal where
  | jnull
  | jbool (b : Bool)
  | jnum (n : Int)
  | jstr (s : String)
  | jarr (elems : List JVal)
  | jobj (fields : List (String × JVal))

/-- JS `Map.prototype.set` / object-key assignment: replace the value in
place when the key exists (keeping its position), append otherwise. -/
def mapSet (k : String) (v : α) : List (String × α) → List (String × α)
  | [] => [(k, v)]
  | (k', v') :: rest => if k' = k then (k, v) :: rest else (k', v') :: mapSet k v rest

def mapGet (k : String) : List (String × α) → Option α
  | [] => none
  | (k', v') :: rest => if k' = k then some v' else mapGet k rest

def JVal.getField (k : String) : JVal → Option JVal
  | .jobj fs => mapGet k fs
  | _ => none

/-- Property access expecting a string (`args.field_id` and friends); the
tool arguments of this program are string-valued. -/
def JVal.getStr (k : String) (v : JVal) : Option String :=
  match v.getField k with
  | some (.jstr s) => some s
  | _ => none

def JVal.getNum (k : String) (v : JVal) : Option Int :=
  match v.getField k with
  | some (.jnum n) => some n
  | _ => none

/-- JS truthiness of an optional string property. -/
def truthyStr : Option String → Bool
  | some s => s ≠ ""
  | none => false

/-- JS `x || 'Medium'`-style defaulting of an optional string. -/
def strOr (o : Option String) (d : String) : String :=
  match o with
  | some s => if s = "" then d else s
  | none => d

/-! ### Embedded `JSON.stringify` and `JSON.parse`

Fuel-based so that every definition is structurally recursive and reduces
inside the kernel.  The fuel arguments are always instantiated with a bound
that is sufficient for the value/input at hand. -/

def backslashChar : Char := Char.ofNat 92

def jsonEscChar (c : Char) : String :=
  if c = '"' then charsStr [backslashChar, '"']
  else if c = backslashChar then charsStr [backslashChar, backslashChar]
  else if c = '\n' then charsStr [backslashChar, 'n']
  else if c = '\t' then charsStr [backslashChar, 't']
  else if c = '\r' then charsStr [backslashChar, 'r']
  else charsStr [c]

def jsonQuote (s : String) : String :=
  "\"" ++ String.join ((strChars s).map jsonEscChar) ++ "\""

/-- `JSON.stringify` (no indentation), with enough fuel for any value this
program builds (their nesting depth is at most 4). -/
def jsonStringifyF : Nat → JVal → String
  | 0, _ => ""
  | _, .jnull => "null"
  | _, .jbool true => "true"
  | _, .jbool false => "false"
  | _, .jnum n => toString n
  | _, .jstr s => jsonQuote s
  | fuel + 1, .jarr es =>
    "[" ++ String.intercalate "," (es.map (jsonStringifyF fuel)) ++ "]"
  | fuel + 1, .jobj fs =>
    "\x7b" ++
      String.intercalate ","
        (fs.map (fun kv => jsonQuote kv.1 ++ ":" ++ jsonStringifyF fuel kv.2)) ++
      "\x7d"

def jsonStringify (v : JVal) : String := jsonStringifyF 64 v

def skipWs (l : Chars) : Chars := l.dropWhile isWsChar

/-- Body of a JSON string after the opening quote: returns the decoded
characters and the remainder after the closing quote. -/
def jsonStrBody : Chars → Option (Chars × Chars)
  | [] => none
  | c :: cs =>
    if c = '"' then some ([], cs)
    else if c = backslashChar then
      match cs with
      | [] => none
      | e :: cs' =>
        match
          (if e = '"' then some '"'
           else if e = backslashChar then some backslashChar
           else if e = '/' then some '/'
           else if e = 'n' then some '\n'
           else if e = 't' then some '\t'
           else if e = 'r' then some '\r'
           else none) with
        | none => none
        | some d => (jsonStrBody cs').map (fun p => (d :: p.1, p.2))
    else (jsonStrBody cs).map (fun p => (c :: p.1, p.2))

def digitsVal (ds : Chars) : Nat := ds.foldl (fun a c => a * 10 + (c.toNat - 48)) 0

/-- An integer literal (floats are not modeled; this program's payloads
only carry integers). -/
def jsonIntAt (l : Chars) : Option (JVal × Chars) :=
  let p : Bool × Chars := match l with
    | c :: cs => if c = '-' then (true, cs) else (false, l)
    | [] => (false, l)
  let ds := p.2.takeWhile isDigitChar
  let rest := p.2.drop ds.length
  if ds.isEmpty then none
  else
    let n : Int := if p.1 then -(digitsVal ds : Int) else (digitsVal ds : Int)
    match rest with
    | c :: _ => if c = '.' || c = 'e' || c = 'E' then none else some (.jnum n, rest)
    | [] => some (.jnum n, rest)

/-- Parsing mode for the single-function JSON parser. -/
inductive PMode where
  | val
  | objPair (acc : List (String × JVal))
  | objNext (acc : List (String × JVal))
  | arrVal (acc : List JVal)
  | arrNext (acc : List JVal)

def jsonP : Nat → PMode → Chars → Option (JVal × Chars)
  | 0, _, _ => none
  | fuel + 1, m, l₀ =>
    let l := skipWs l₀
    match m with
    | .val =>
      match l with
      | [] => none
      | c :: cs =>
        if c = '"' then (jsonStrBody cs).map (fun p => (JVal.jstr (charsStr p.1), p.2))
        else if c = lbrace then
          match skipWs cs with
          | d :: ds => if d = rbrace then some (.jobj [], ds) else jsonP fuel (.objPair []) (d :: ds)
          | [] => none
        else if c = '[' then
          match skipWs cs with
          | d :: ds => if d = ']' then some (.jarr [], ds) else jsonP fuel (.arrVal []) (d :: ds)
          | [] => none
        else if isStartOf (strChars "true") l then some (.jbool true, l.drop 4)
        else if isStartOf (strChars "false") l then some (.jbool false, l.drop 5)
        else if isStartOf (strChars "null") l then some (.jnull, l.drop 4)
        else jsonIntAt l
    | .objPair acc =>
      match l with
      | [] => none
      | c :: cs =>
        if c = '"' then
          match jsonStrBody cs with
          | some (k, r) =>
            match skipWs r with
            | ':' :: r2 =>
              match jsonP fuel .val r2 with
              | some (v, r3) => jsonP fuel (.objNext (mapSet (charsStr k) v acc)) r3
              | none => none
            | _ => none
          | none => none
        else none
    | .objNext acc =>
      match l with
      | [] => none
      | c :: cs =>
        if c = rbrace then some (.jobj acc, cs)
        else if c = ',' then jsonP fuel (.objPair acc) cs
        else none
    | .arrVal acc =>
      match jsonP fuel .val l with
      | some (v, r) => jsonP fuel (.arrNext (acc ++ [v])) r
      | none => none
    | .arrNext acc =>
      match l with
      | [] => none
      | c :: cs =>
        if c = ']' then some (.jarr acc, cs)
        else if c = ',' then jsonP fuel (.arrVal acc) cs
        else none

/-- Embedded `JSON.parse`: `none` models a thrown `SyntaxError`. -/
def jsonParse (s : String) : Option JVal :=
  let l := strChars s
  match jsonP (2 * l.length + 4) .val l with
  | some (v, rest) => if (skipWs rest).isEmpty then some v else none
  | none => none

/-! ### Matchers for the regex literals of `extractToolCalls` / `parseArgs`

Each definition implements the leftmost-match behaviour (with the greedy /
lazy backtracking relevant to its pattern) of one regular-expression
literal of `src/form-filling-tools.js`. -/

def charAt (text : Chars) (i : Nat) : Option Char := (text.drop i).head?

def firstSome (f : α → Option β) : List α → Option β
  | [] => none
  | a :: as => match f a with | some b => some b | none => firstSome f as

/-- Global (`/g`) scanning: try `step` at every index; after a match resume
at the match end (JS `lastIndex`), otherwise advance one character. -/
def scanAll (text : Chars) (step : Chars → Nat → Option (α × Nat)) : List α :=
  go (text.length + 1) 0
where
  go : Nat → Nat → List α
    | 0, _ => []
    | fuel + 1, pos =>
      if pos ≥ text.length then []
      else match step text pos with
        | some (a, endIdx) => a :: go fuel (max endIdx (pos + 1))
        | none => go fuel (pos + 1)

/-- `m[0]` of the first match of
`/{[\s\S]*?"action"[\s]*:[\s]*"([^"]+)"[\s\S]*?}/`. -/
def jsonActionM (text : Chars) : Option Chars :=
  firstSome
    (fun i =>
      if charAt text i = some lbrace then
        firstSome
          (fun j =>
            if i + 1 ≤ j then
              let p := j + 8
              let w1 := runLen isWsChar text p
              if charAt text (p + w1) = some ':' then
                let q0 := p + w1 + 1
                let w2 := runLen isWsChar text q0
                if charAt text (q0 + w2) = some '"' then
                  let q := q0 + w2 + 1
                  let r := runLen (fun c => c ≠ '"') text q
                  if 1 ≤ r && charAt text (q + r) = some '"' then
                    match findSub [rbrace] (text.drop (q + r + 1)) with
                    | some d => some (sliceC text i (q + r + 1 + d + 1))
                    | none => none
                  else none
                else none
              else none
            else none)
          (allSubIdx (strChars "\"action\"") text)
      else none)
    (List.range (text.length + 1))

/-- Character class of the `Tool:` block's name group `[a-zA-Z_\\]`. -/
def isNameCharTB (c : Char) : Bool := isAlphaChar c || c = '_' || c = backslashChar

/-- One match attempt of `/Tool:\s+([a-zA-Z_\\]+)(?:\s+Parameters:)?\s*(?:{[^}]+})?/g`
at index `i`; yields the raw name group and the match-end index. -/
def toolBlockStep (text : Chars) (i : Nat) : Option ((String × Nat) × Nat) :=
  if isStartOf (strChars "Tool:") (text.drop i) then
    let p := i + 5
    let w := runLen isWsChar text p
    if 1 ≤ w then
      let q := p + w
      let r := runLen isNameCharTB text q
      if 1 ≤ r then
        let p0 := q + r
        let w2 := runLen isWsChar text p0
        let p1 :=
          if 1 ≤ w2 && isStartOf (strChars "Parameters:") (text.drop (p0 + w2)) then
            p0 + w2 + 11
          else p0
        let w3 := runLen isWsChar text p1
        let p2 := p1 + w3
        let p3 :=
          if charAt text p2 = some lbrace then
            let rr := runLen (fun c => c ≠ rbrace) text (p2 + 1)
            if 1 ≤ rr && charAt text (p2 + 1 + rr) = some rbrace then p2 + 1 + rr + 1 else p2
          else p2
        some ((charsStr (sliceC text q (q + r)), p3), p3)
      else none
    else none
  else none

/-- All matches of the mistral tool-block pattern: (raw name group, index
just after the match — the `startIndex` used for `nextSection`). -/
def toolBlockScan (text : Chars) : List (String × Nat) :=
  scanAll text toolBlockStep

/-- Group 1 of the first match of `/Parameters:\s*({[^}]+})/`. -/
def paramsBlobM (text : Chars) : Option Chars :=
  firstSome
    (fun i =>
      if isStartOf (strChars "Parameters:") (text.drop i) then
        let p := i + 11
        let w := runLen isWsChar text p
        let q := p + w
        if charAt text q = some lbrace then
          let rr := runLen (fun c => c ≠ rbrace) text (q + 1)
          if 1 ≤ rr && charAt text (q + 1 + rr) = some rbrace then
            some (sliceC text q (q + 1 + rr + 1))
          else none
        else none
      else none)
    (List.range (text.length + 1))

/-- Full matches of `/\"([^\"]+)\":\s*\"([^\"]+)\"/g`. -/
def kvQuotedStep (text : Chars) (i : Nat) : Option (Chars × Nat) :=
  if charAt text i = some '"' then
    let r1 := runLen (fun c => c ≠ '"') text (i + 1)
    if 1 ≤ r1 && charAt text (i + 1 + r1) = some '"' then
      let p := i + 1 + r1 + 1
      if charAt text p = some ':' then
        let w := runLen isWsChar text (p + 1)
        let q := p + 1 + w
        if charAt text q = some '"' then
          let r2 := runLen (fun c => c ≠ '"') text (q + 1)
          if 1 ≤ r2 && charAt text (q + 1 + r2) = some '"' then
            some (sliceC text i (q + 1 + r2 + 1), q + 1 + r2 + 1)
          else none
        else none
      else none
    else none
  else none

def kvQuotedScan (text : Chars) : List Chars := scanAll text kvQuotedStep

def splitOnChar (ch : Char) : Chars → List Chars
  | [] => [[]]
  | c :: cs =>
    if c = ch then [] :: splitOnChar ch cs
    else match splitOnChar ch cs with
      | [] => [[c]]
      | l :: ls => (c :: l) :: ls

def isQuoteChar (c : Char) : Bool := c = '"' || c = squote

/-- `.replace(/^["']|["']$/g, '')`: strip one leading and one trailing quote. -/
def stripQuoteEnds (l : Chars) : Chars :=
  let l1 := match l with
    | c :: cs => if isQuoteChar c then cs else l
    | [] => l
  match l1.reverse with
  | c :: cs => if isQuoteChar c then cs.reverse else l1
  | [] => l1

/-- Character class `[: "']` of the prose-parameter patterns. -/
def isProseSepChar (c : Char) : Bool := c = ':' || c = ' ' || isQuoteChar c

/-- Lazy `(.*?)["']`: distance to the first quote character, failing on a
line terminator (`.` does not match those). -/
def scanToQuote : Chars → Option Nat
  | [] => none
  | c :: cs =>
    if isQuoteChar c then some 0
    else if c = '\n' || c = '\r' then none
    else (scanToQuote cs).map (· + 1)

/-- Group 1 of the first match of `/<key>[: "']+(.*?)["']/i`. -/
def proseParam (key : String) (text : Chars) : Option Chars :=
  let kl := (strChars key).length
  firstSome
    (fun i =>
      let m := runLen isProseSepChar text (i + kl)
      if 1 ≤ m then
        firstSome
          (fun k =>
            let pos := i + kl + k
            (scanToQuote (text.drop pos)).map (fun d => sliceC text pos (pos + d)))
          ((List.range m).map (fun t => m - t))
      else none)
    (allSubIdxCI (strChars key) text)

/-- Group 1 of the first match of `/field_id[: "']+(application-[^"']+)["']/i`. -/
def fieldIdProse (text : Chars) : Option Chars :=
  firstSome
    (fun i =>
      let m := runLen isProseSepChar text (i + 8)
      if 1 ≤ m then
        firstSome
          (fun k =>
            let pos := i + 8 + k
            if isStartOfCI (strChars "application-") (text.drop pos) then
              let r := runLen (fun c => !isQuoteChar c) text (pos + 12)
              if 1 ≤ r then
                match charAt text (pos + 12 + r) with
                | some c => if isQuoteChar c then some (sliceC text pos (pos + 12 + r)) else none
                | none => none
              else none
            else none)
          ((List.range m).map (fun t => m - t))
      else none)
    (allSubIdxCI (strChars "field_id") text)

/-- Character class `[a-zA-Z_]` of the direct-call pattern's name group. -/
def isNameCharDC (c : Char) : Bool := isAlphaChar c || c = '_'

/-- One match of `/([a-zA-Z_]+)\(([^)]*)\)/g` at index `i`. -/
def directStep (text : Chars) (i : Nat) : Option ((String × String) × Nat) :=
  let r := runLen isNameCharDC text i
  if 1 ≤ r && charAt text (i + r) = some '(' then
    let a := runLen (fun c => c ≠ ')') text (i + r + 1)
    if charAt text (i + r + 1 + a) = some ')' then
      some ((charsStr (sliceC text i (i + r)),
             charsStr (sliceC text (i + r + 1) (i + r + 1 + a))),
            i + r + 1 + a + 1)
    else none
  else none

def directCallScan (text : Chars) : List (String × String) := scanAll text directStep

/-- One match of `/```(?:python|javascript)?\s*([\s\S]*?)\s*```/g` at `i`:
yields the (whitespace-stripped) content group. -/
def codeBlockStep (text : Chars) (i : Nat) : Option (Chars × Nat) :=
  if isStartOf (strChars "```") (text.drop i) then
    let p := i + 3
    let p :=
      if isStartOf (strChars "python") (text.drop p) then p + 6
      else if isStartOf (strChars "javascript") (text.drop p) then p + 10
      else p
    let w := runLen isWsChar text p
    let cs := p + w
    match findSub (strChars "```") (text.drop cs) with
    | some d =>
      some (((sliceC text cs (cs + d)).reverse.dropWhile isWsChar).reverse, cs + d + 3)
    | none => none
  else none

def codeBlockScan (text : Chars) : List Chars := scanAll text codeBlockStep

/-- The quoted alternative of `/"([^"]*(?:""[^"]*)*)"|([^,]+)/g`, after the
opening quote: decoded content (with `""` collapsed, as by the subsequent
`.replace(/""/g, '"')`) and the remainder. -/
def csvQuoted : Nat → Chars → Option (Chars × Chars)
  | 0, _ => none
  | fuel + 1, l =>
    let r := l.takeWhile (fun c => c ≠ '"')
    match l.drop r.length with
    | '"' :: '"' :: tail => (csvQuoted fuel tail).map (fun p => (r ++ '"' :: p.1, p.2))
    | '"' :: tail => some (r, tail)
    | _ => none

def splitCsvGo : Nat → Chars → List Chars
  | 0, _ => []
  | _, [] => []
  | fuel + 1, c :: cs =>
    if c = '"' then
      match csvQuoted (cs.length + 1) cs with
      | some (content, rest) => content :: splitCsvGo fuel rest
      | none =>
        let r := (c :: cs).takeWhile (fun d => d ≠ ',')
        r :: splitCsvGo fuel ((c :: cs).drop r.length)
    else if c = ',' then splitCsvGo fuel cs
    else
      let r := (c :: cs).takeWhile (fun d => d ≠ ',')
      r :: splitCsvGo fuel ((c :: cs).drop r.length)

/-- `splitCsvRespectingQuotes` of form-filling-tools.js: matches of the CSV
pattern, `""`-unescaped, each `.trim()`ed. -/
def splitCsvRespectingQuotes (s : String) : List String :=
  (splitCsvGo (s.data.length + 1) s.data).map (fun l => charsStr (trimC l))

/-- One match of `/(\w+)\s*=\s*["']([^"']+)["']/g` at `i`: full match text. -/
def kvEqStep (text : Chars) (i : Nat) : Option (Chars × Nat) :=
  let r := runLen isWordChar text i
  if 1 ≤ r then
    let w1 := runLen isWsChar text (i + r)
    if charAt text (i + r + w1) = some '=' then
      let p := i + r + w1 + 1
      let w2 := runLen isWsChar text p
      let q := p + w2
      match charAt text q with
      | some c =>
        if isQuoteChar c then
          let rv := runLen (fun d => !isQuoteChar d) text (q + 1)
          if 1 ≤ rv then
            match charAt text (q + 1 + rv) with
            | some c2 =>
              if isQuoteChar c2 then some (sliceC text i (q + 1 + rv + 1), q + 1 + rv + 1)
              else none
            | none => none
          else none
        else none
      | none => none
    else none
  else none

def kvEqScan (text : Chars) : List Chars := scanAll text kvEqStep

/-- Group 1 of the first match of `/query\s*=\s*["']([^"']+)["']/`. -/
def queryEqM (text : Chars) : Option Chars :=
  firstSome
    (fun i =>
      if isStartOf (strChars "query") (text.drop i) then
        let w1 := runLen isWsChar text (i + 5)
        if charAt text (i + 5 + w1) = some '=' then
          let p := i + 5 + w1 + 1
          let w2 := runLen isWsChar text p
          let q := p + w2
          match charAt text q with
          | some c =>
            if isQuoteChar c then
              let rv := runLen (fun d => !isQuoteChar d) text (q + 1)
              if 1 ≤ rv then
                match charAt text (q + 1 + rv) with
                | some c2 => if isQuoteChar c2 then some (sliceC text (q + 1) (q + 1 + rv)) else none
                | none => none
              else none
            else none
          | none => none
        else none
      else none)
    (List.range (text.length + 1))

/-- Presence of a match of `/ID:\s*(application-[^\n]+)\n-\s*Value:\s*([^\n]+)/i`
(the heuristic `fill_field` fallback pattern). -/
def hasFieldValuePattern (text : Chars) : Bool :=
  (List.range (text.length + 1)).any (fun i =>
    isStartOfCI (strChars "ID:") (text.drop i) &&
    (let w := runLen isWsChar text (i + 3)
     let j := i + 3 + w
     isStartOfCI (strChars "application-") (text.drop j) &&
     (let r := runLen (fun c => c ≠ '\n') text (j + 12)
      decide (1 ≤ r) &&
      (charAt text (j + 12 + r) == some '\n') &&
      (charAt text (j + 12 + r + 1) == some '-') &&
      (let p := j + 12 + r + 2
       let w2 := runLen isWsChar text p
       isStartOfCI (strChars "Value:") (text.drop (p + w2)) &&
       (let t := p + w2 + 6
        let w3 := runLen isWsChar text t
        (List.range (w3 + 1)).any (fun d =>
          match charAt text (t + d) with
          | some c => c != '\n'
          | none => false))))))

/-! ### The Tool Call Parser (`extractToolCalls`, `parseArgs`) -/

/-- A canonical tool call `{id?, tool, args}`.  `id = none` models both an
absent `id` property and the `auto_`/`call_`-prefixed ids the source
generates from `Math.random()` (their exact text is never observed). -/
structure ToolCall where
  id : Option String
  tool : String
  args : JVal

/-- The `arguments` payload of a native structured call: a JSON string, an
already-parsed object, or absent (`?? {}`). -/
inductive RawArgs where
  | argStr (s : String)
  | argObj (v : JVal)
  | argAbsent

structure NativeToolCall where
  id : String
  name : String
  arguments : RawArgs

/-- A model response: free text, or a structured response carrying
`tool_calls` (each with `function.name` / `function.arguments`). -/
inductive AgentResponse where
  | text (s : String)
  | native (content : String) (tool_calls : List NativeToolCall)

def validTools : List String :=
  ["analyze_resume", "get_resume_section", "get_next_field",
   "check_field", "fill_field", "list_fields",
   "search_resume", "save_progress"]

def JVal.setKey (k : String) (v : JVal) : JVal → JVal
  | .jobj fs => .jobj (mapSet k v fs)
  | other => other

def removeFirstChar (ch : Char) : Chars → Chars
  | [] => []
  | c :: cs => if c = ch then cs else c :: removeFirstChar ch cs

/-- `parseArgs(tool, argsStr)` of form-filling-tools.js; `none` models its
`null` return for a tool name outside `validTools`.  A `JSON.parse` failure
in the brace branch is caught and yields `{}`. -/
def parseArgs (tool : String) (argsStr : String) : Option JVal :=
  if !validTools.contains tool then none
  else
    let tc := trimC (strChars argsStr)
    if (tc.head? == some lbrace) && (tc.getLast? == some rbrace) then
      some ((jsonParse argsStr).getD (.jobj []))
    else if tool = "analyze_resume" || tool = "get_next_field" ||
            tool = "list_fields" || tool = "save_progress" then
      some (.jobj [])
    else if tool = "get_resume_section" then
      some (.jobj [("section_name", .jstr (charsStr ((strChars argsStr).filter (fun c => !isQuoteChar c))))])
    else if tool = "check_field" then
      some (.jobj [("field_id", .jstr (charsStr ((strChars argsStr).filter (fun c => !isQuoteChar c))))])
    else if tool = "fill_field" then
      let commaSplit : Option JVal :=
        if includesS argsStr "," then
          let parts := splitCsvRespectingQuotes argsStr
          if 2 ≤ parts.length then
            some (.jobj [("field_id", .jstr (parts.getD 0 "")),
                         ("value", .jstr (parts.getD 1 "")),
                         ("confidence", .jstr (strOr (parts.get? 2) "Medium"))])
          else none
        else none
      match commaSplit with
      | some v => some v
      | none =>
        let pairs := kvEqScan (strChars argsStr)
        if !pairs.isEmpty then
          some (.jobj (pairs.foldl
            (fun acc pair =>
              let parts := splitOnChar '=' pair
              let key := charsStr (stripQuoteEnds (trimC (parts.getD 0 [])))
              let value := charsStr (stripQuoteEnds (trimC (parts.getD 1 [])))
              mapSet key (JVal.jstr value) acc) []))
        else
          some (.jobj [("field_id", .jstr "unknown"),
                       ("value", .jstr (charsStr (stripQuoteEnds (strChars argsStr)))),
                       ("confidence", .jstr "Low")])
    else if tool = "search_resume" then
      let eqMatch : Option JVal :=
        if includesS argsStr "query" || includesS argsStr "=" then
          (queryEqM (strChars argsStr)).map (fun q => .jobj [("query", .jstr (charsStr q))])
        else none
      match eqMatch with
      | some v => some v
      | none => some (.jobj [("query", .jstr (charsStr (stripQuoteEnds (strChars argsStr))))])
    else
      some (.jobj [])

/-- The native structured path of `extractToolCalls`: no tool-name
filtering; a string payload that fails to parse (caught error) or is
whitespace-only degrades to `{}`. -/
def extractNative (calls : List NativeToolCall) : List ToolCall :=
  calls.filterMap (fun tc =>
    if tc.name ≠ "" then
      let args : JVal :=
        match tc.arguments with
        | .argStr s => if trimS s ≠ "" then (jsonParse s).getD (.jobj []) else .jobj []
        | .argObj v => v
        | .argAbsent => .jobj []
      some ⟨some tc.id, tc.name, args⟩
    else none)

/-- The embedded JSON-action format (`{"action": "<tool>", ...}`); `none`
means "no valid JSON action found, continue with the other formats". -/
def jsonActionStage (text : Chars) : Option (List ToolCall) :=
  match jsonActionM text with
  | none => none
  | some m =>
    match jsonParse (charsStr m) with
    | none => none
    | some v =>
      match v with
      | .jobj fs =>
        match v.getStr "action" with
        | some a =>
          if a ≠ "" && validTools.contains a then
            some [⟨none, a, .jobj (fs.filter (fun kv => kv.1 ≠ "action"))⟩]
          else none
        | none => none
      | _ => none

/-- The labeled `Tool: <name>` block format, with the `Parameters:` blob /
key-value / prose fallbacks of the source. -/
def toolBlockStage (text : Chars) : List ToolCall :=
  (toolBlockScan text).filterMap (fun nm =>
    let toolName := charsStr (removeFirstChar backslashChar (trimC (strChars nm.1)))
    if validTools.contains toolName then
      let nextSection := sliceC text nm.2 (nm.2 + 200)
      let args0 : JVal :=
        match paramsBlobM nextSection with
        | some blob =>
          match jsonParse (charsStr blob) with
          | some v => v
          | none =>
            .jobj ((kvQuotedScan blob).foldl
              (fun acc pair =>
                let parts := splitOnChar ':' pair
                let key := charsStr ((trimC (parts.getD 0 [])).filter (fun c => c ≠ '"'))
                let value := charsStr ((trimC (parts.getD 1 [])).filter (fun c => c ≠ '"'))
                if key ≠ "" && value ≠ "" then mapSet key (JVal.jstr value) acc else acc)
              [])
        | none => .jobj []
      let args1 :=
        if toolName = "search_resume" && !truthyStr (args0.getStr "query") then
          match proseParam "query" nextSection with
          | some q => args0.setKey "query" (.jstr (charsStr q))
          | none => args0
        else args0
      let args2 :=
        if toolName = "fill_field" && !truthyStr (args1.getStr "field_id") then
          match fieldIdProse nextSection with
          | some fid =>
            let a := args1.setKey "field_id" (.jstr (charsStr fid))
            let a := match proseParam "value" nextSection with
              | some v => a.setKey "value" (.jstr (charsStr v))
              | none => a
            match proseParam "confidence" nextSection with
            | some c => a.setKey "confidence" (.jstr (charsStr c))
            | none => a
          | none => args1
        else args1
      some ⟨none, toolName, args2⟩
    else none)

/-- Direct `tool_name(args)` calls in the plain text. -/
def directStage (text : Chars) : List ToolCall :=
  (directCallScan text).filterMap (fun ta =>
    (parseArgs (trimS ta.1) (trimS ta.2)).map
      (fun args => ⟨none, trimS ta.1, args⟩))

/-- Direct calls inside fenced code blocks, deduplicated against the
already-collected calls by `(tool, JSON.stringify(args))`. -/
def addCodeBlockCalls (text : Chars) (acc₀ : List ToolCall) : List ToolCall :=
  (codeBlockScan text).foldl
    (fun acc block =>
      (directCallScan block).foldl
        (fun acc ta =>
          match parseArgs (trimS ta.1) (trimS ta.2) with
          | some args =>
            if acc.any (fun tc =>
                tc.tool = trimS ta.1 && jsonStringify tc.args = jsonStringify args) then acc
            else acc ++ [⟨none, trimS ta.1, args⟩]
          | none => acc)
        acc)
    acc₀

/-- The heuristic fallback stage.  When the `ID: application-... Value: ...`
pattern matches, the push site of form-filling-tools.js reads the
undeclared variable `field_id`, so a `ReferenceError` is thrown — modeled
as `.error`. -/
def fallbackStage (s : String) : Except String (List ToolCall) :=
  let base : List ToolCall :=
    if includesS s "Next field:" && includesS s "get_next_field" then
      [⟨none, "get_next_field", JVal.jobj []⟩]
    else []
  if hasFieldValuePattern (strChars s) then .error "field_id is not defined"
  else .ok base

def extractFromText (s : String) : Except String (List ToolCall) :=
  let text := strChars s
  match jsonActionStage text with
  | some calls => .ok calls
  | none =>
    let blockCalls := toolBlockStage text
    let calls :=
      if blockCalls.isEmpty then addCodeBlockCalls text (directStage text)
      else blockCalls
    if calls.isEmpty then fallbackStage s else .ok calls

/-- `extractToolCalls` of form-filling-tools.js.  `.error` models an
uncaught exception escaping the method (only the fallback stage's
`ReferenceError` can occur). -/
def extractToolCalls : AgentResponse → Except String (List ToolCall)
  | .native _ calls => .ok (extractNative calls)
  | .text s => extractFromText s

/-! ### Matchers for the `analyzeResume` / `getResumeSection` regexes -/

/-- Is the char at `i` a `\w` word char (out of bounds counts as no)? -/
def wordAtB (text : Chars) (i : Nat) : Bool :=
  match charAt text i with
  | some c => isWordChar c
  | none => false

/-- JS `\b` at position `i` (between `i-1` and `i`). -/
def boundaryAt (text : Chars) (i : Nat) : Bool :=
  (if i = 0 then false else wordAtB text (i - 1)) != wordAtB text i

/-- Length of one `[A-Z][a-z]+` word at `i`. -/
def nameWordAt (text : Chars) (i : Nat) : Option Nat :=
  match charAt text i with
  | some c =>
    if isUpperChar c then
      let r := runLen isLowerChar text (i + 1)
      if 1 ≤ r then some (1 + r) else none
    else none
  | none => none

/-- Greedy total length of `(?: [A-Z][a-z]+)*` groups from `i`. -/
def nameGroupsFrom : Nat → Chars → Nat → Nat
  | 0, _, _ => 0
  | fuel + 1, text, i =>
    if charAt text i = some ' ' then
      match nameWordAt text (i + 1) with
      | some w => 1 + w + nameGroupsFrom fuel text (i + 1 + w)
      | none => 0
    else 0

def lineStarts (text : Chars) : List Nat :=
  0 :: (List.range text.length).filterMap
    (fun i => if charAt text i = some '\n' then some (i + 1) else none)

/-- `m[0]` of `/^([A-Z][a-z]+(?: [A-Z][a-z]+)+)/m`. -/
def nameM (text : Chars) : Option Chars :=
  firstSome
    (fun i =>
      match nameWordAt text i with
      | some w =>
        let g := nameGroupsFrom (text.length + 1) text (i + w)
        if 1 ≤ g then some (sliceC text i (i + w + g)) else none
      | none => none)
    (lineStarts text)

def isLocalChar (c : Char) : Bool :=
  isAlphaChar c || isDigitChar c || c = '.' || c = '_' || c = '%' || c = '+' || c = '-'

def isDomainChar (c : Char) : Bool := isAlphaChar c || isDigitChar c || c = '.' || c = '-'

/-- The class `[A-Z|a-z]` of the email pattern (it literally includes `|`). -/
def isTldChar (c : Char) : Bool := isAlphaChar c || c = '|'

/-- `m[0]` of `/\b[A-Za-z0-9._%+-]+@[A-Za-z0-9.-]+\.[A-Z|a-z]{2,}\b/`. -/
def emailM (text : Chars) : Option Chars :=
  firstSome
    (fun i =>
      if boundaryAt text i then
        let lL := runLen isLocalChar text i
        if 1 ≤ lL && charAt text (i + lL) = some '@' then
          let j := i + lL + 1
          let lD := runLen isDomainChar text j
          if 1 ≤ lD then
            firstSome
              (fun d =>
                if 1 ≤ d && charAt text (j + d) = some '.' then
                  let k := j + d + 1
                  let lT := runLen isTldChar text k
                  firstSome
                    (fun t =>
                      if 2 ≤ t && boundaryAt text (k + t) then some (sliceC text i (k + t))
                      else none)
                    ((List.range lT).map (fun x => lT - x))
                else none)
              ((List.range lD).map (fun x => lD - 1 - x))
          else none
        else none
      else none)
    (List.range (text.length + 1))

def isSepChar (c : Char) : Bool := c = '-' || c = '.' || isWsChar c

def digitsRun (text : Chars) (i n : Nat) : Bool :=
  let s := sliceC text i (i + n)
  s.length == n && s.all isDigitChar

/-- Optional `[-.\s]?` (greedy, with backtracking) before continuation `k`. -/
def optSep (text : Chars) (p : Nat) (k : Nat → Option Nat) : Option Nat :=
  match charAt text p with
  | some c =>
    if isSepChar c then
      match k (p + 1) with
      | some e => some e
      | none => k p
    else k p
  | none => k p

/-- End index of a match of `/\(?\d{3}\)?[-.\s]?\d{3}[-.\s]?\d{4}/` at `i`. -/
def phoneAt (text : Chars) (i : Nat) : Option Nat :=
  let start := if charAt text i = some '(' then i + 1 else i
  if digitsRun text start 3 then
    let p := start + 3
    let rest := fun (q : Nat) =>
      optSep text q (fun q2 =>
        if digitsRun text q2 3 then
          optSep text (q2 + 3) (fun q3 => if digitsRun text q3 4 then some (q3 + 4) else none)
        else none)
    match (if charAt text p = some ')' then rest (p + 1) else none) with
    | some e => some e
    | none => rest p
  else none

def phoneM (text : Chars) : Option Chars :=
  firstSome
    (fun i => (phoneAt text i).map (fun e => sliceC text i e))
    (List.range (text.length + 1))

/-- Group 1 of `/, ([A-Z]{2})\b/`. -/
def locM (text : Chars) : Option Chars :=
  firstSome
    (fun i =>
      if charAt text i = some ',' ∧ charAt text (i + 1) = some ' ' then
        match charAt text (i + 2), charAt text (i + 3) with
        | some a, some b =>
          if isUpperChar a && isUpperChar b && !wordAtB text (i + 4) then some [a, b]
          else none
        | _, _ => none
      else none)
    (List.range (text.length + 1))

/-- `m[0]` of `/Bachelor|Master|PhD|Associate/i`. -/
def eduM (text : Chars) : Option Chars :=
  firstSome
    (fun i =>
      firstSome
        (fun w =>
          if isStartOfCI (strChars w) (text.drop i) then
            some (sliceC text i (i + (strChars w).length))
          else none)
        ["Bachelor", "Master", "PhD", "Associate"])
    (List.range (text.length + 1))

/-- The lookahead `(?=\n\s*\n)` at position `e`. -/
def nlBlankAt (text : Chars) (e : Nat) : Bool :=
  (charAt text e == some '\n') &&
  (let r := runLen isWsChar text (e + 1)
   (List.range r).any (fun d => charAt text (e + 1 + d) == some '\n'))

/-- `m[0]` of `/<startPat>[\s\S]*?(?=…)/i`: from a (case-insensitive)
occurrence of `startPat`, lazily up to the earliest position where the
lookahead holds. -/
def sectionWindow (startPat : String) (look : Chars → Nat → Bool) (text : Chars) : Option Chars :=
  let pl := (strChars startPat).length
  firstSome
    (fun i =>
      let base := i + pl
      firstSome
        (fun e => if look text e then some (sliceC text i e) else none)
        ((List.range (text.length + 1 - base)).map (· + base)))
    (allSubIdxCI (strChars startPat) text)

def eduLook (text : Chars) (e : Nat) : Bool :=
  isStartOfCI (strChars "Experience") (text.drop e) || nlBlankAt text e

def expLook (text : Chars) (e : Nat) : Bool :=
  isStartOfCI (strChars "Projects") (text.drop e) || isStartOfCI (strChars "Skills") (text.drop e) ||
    nlBlankAt text e

def skillsLook (text : Chars) (e : Nat) : Bool :=
  nlBlankAt text e || decide (e = text.length)

def projLook (text : Chars) (e : Nat) : Bool :=
  isStartOfCI (strChars "Skills") (text.drop e) ||
    isStartOfCI (strChars "Organizations") (text.drop e) || nlBlankAt text e

def contactLook (text : Chars) (e : Nat) : Bool :=
  isStartOfCI (strChars "Education") (text.drop e) ||
    isStartOfCI (strChars "Experience") (text.drop e) || nlBlankAt text e

/-- `m[0]` of `/^[\s\S]*?(?=Education|Experience|\n\s*\n)/i` (anchored at 0). -/
def contactWindow (text : Chars) : Option Chars :=
  firstSome
    (fun e => if contactLook text e then some (sliceC text 0 e) else none)
    (List.range (text.length + 1))

/-! ### The Field Registry and Resume Query Service (tool implementations) -/

/-- A normalized form field (`ftype` embeds the source's `type` property;
an absent `label` / `autocomplete` is the empty string). -/
structure FormField where
  id : String
  label : String
  ftype : String
  required : Bool
  autocomplete : String := ""

/-- A `FilledField` `{id, value, confidence}`; `value = none` models a
`fill_field` call whose `value` argument was absent (JS `undefined`). -/
structure FilledVal where
  id : String
  value : Option String
  confidence : String

/-- The mutable instance state of the `FormFillingTools` class. -/
structure ToolsState where
  resumeContent : String
  formFields : List FormField
  currentFieldIndex : Nat
  completedFields : List FilledVal
  currentState : String
  completionStatus : Nat
  resumeAnalysis : Option JVal

/-- The constructor's state initialization. -/
def mkToolsState (resume : String) (fields : List FormField) : ToolsState :=
  ⟨resume, fields, 0, [], "initial", 0, none⟩

/-- `Math.round(completed / total * 100)` on naturals; `total = 0` gives
`NaN` in JS and is modeled as 0 (never observed by the claims). -/
def roundPct (n total : Nat) : Nat :=
  if total = 0 then 0 else (200 * n + total) / (2 * total)

def fieldLabel (f : FormField) : String := if f.label = "" then f.id else f.label

def analyzeResume (ts : ToolsState) : JVal × ToolsState :=
  match ts.resumeAnalysis with
  | some a => (a, ts)
  | none =>
    let text := strChars ts.resumeContent
    let optJ : Option Chars → JVal := fun o =>
      match o with
      | some l => .jstr (charsStr l)
      | none => .jnull
    let a : JVal := .jobj
      [("name", optJ (nameM text)),
       ("email", optJ (emailM text)),
       ("phone", optJ (phoneM text)),
       ("location", optJ (locM text)),
       ("education", optJ (eduM text))]
    (a, { ts with resumeAnalysis := some a })

def getResumeSection (ts : ToolsState) (sectionName : Option String) : JVal :=
  match sectionName with
  | none =>
    -- `sectionName.toLowerCase()` throws a TypeError, caught by the wrapper
    -- (message text is engine-specific; V8's wording is used here)
    .jobj [("error", .jstr "Failed to get section \x27undefined\x27: Cannot read properties of undefined (reading \x27toLowerCase\x27)")]
  | some sn =>
    let sect := charsStr (lowerChars (strChars sn))
    let text := strChars ts.resumeContent
    let fromWin : Option Chars → String := fun o =>
      match o with
      | some l => charsStr l
      | none => "Section not found"
    let result :=
      if sect = "education" then fromWin (sectionWindow "Education" eduLook text)
      else if sect = "experience" then fromWin (sectionWindow "Experience" expLook text)
      else if sect = "skills" then fromWin (sectionWindow "Skills" skillsLook text)
      else if sect = "projects" then fromWin (sectionWindow "Projects" projLook text)
      else if sect = "contact" then fromWin (contactWindow text)
      else "Unknown section: " ++ sn
    .jobj [("section", .jstr sn), ("content", .jstr result)]

def getNextField (ts : ToolsState) : JVal × ToolsState :=
  if h : ts.formFields.length ≤ ts.currentFieldIndex then
    (.jobj [("message", .jstr "All fields have been processed."), ("remaining", .jnum 0)], ts)
  else
    let f := ts.formFields.get ⟨ts.currentFieldIndex, by omega⟩
    (.jobj
      [("field_id", .jstr f.id),
       ("label", .jstr (fieldLabel f)),
       ("type", .jstr f.ftype),
       ("required", .jbool f.required),
       ("field_index", .jnum ts.currentFieldIndex),
       ("remaining", .jnum ((ts.formFields.length : Int) - (ts.currentFieldIndex + 1)))],
     { ts with currentFieldIndex := ts.currentFieldIndex + 1 })

def checkField (ts : ToolsState) (fieldId : Option String) : JVal :=
  match fieldId with
  | none => .jobj [("error", .jstr "Field with ID \"undefined\" not found.")]
  | some fid =>
    match ts.formFields.find? (fun f => f.id == fid) with
    | none => .jobj [("error", .jstr ("Field with ID \"" ++ fid ++ "\" not found."))]
    | some f => .jobj
        [("field_id", .jstr f.id),
         ("label", .jstr (fieldLabel f)),
         ("type", .jstr f.ftype),
         ("required", .jbool f.required),
         ("autocomplete", if f.autocomplete = "" then .jnull else .jstr f.autocomplete)]

def fillField (ts : ToolsState) (fieldId : Option String) (value : Option String)
    (confidence : Option String) : JVal × ToolsState :=
  let conf := confidence.getD "Medium"
  match fieldId with
  | none => (.jobj [("error", .jstr "Field with ID \"undefined\" not found.")], ts)
  | some fid =>
    match ts.formFields.find? (fun f => f.id == fid) with
    | none => (.jobj [("error", .jstr ("Field with ID \"" ++ fid ++ "\" not found."))], ts)
    | some _ =>
      let completed := ts.completedFields ++ [⟨fid, value, if conf = "" then "Medium" else conf⟩]
      let ts' := { ts with
        completedFields := completed,
        completionStatus := roundPct completed.length ts.formFields.length }
      (.jobj
        ([("field_id", .jstr fid)] ++
         (match value with | some v => [("value", JVal.jstr v)] | none => []) ++
         [("confidence", .jstr conf),
          ("status", .jstr "filled"),
          ("message", .jstr ("Field \x27" ++ fid ++ "\x27 filled with value \x27" ++
            value.getD "undefined" ++ "\x27"))]),
       ts')

def listFields (ts : ToolsState) : JVal :=
  let fields := ts.formFields.map (fun f => JVal.jobj
    [("field_id", .jstr f.id),
     ("label", .jstr (fieldLabel f)),
     ("type", .jstr f.ftype),
     ("required", .jbool f.required)])
  .jobj
    [("fields", .jarr fields),
     ("total", .jnum ts.formFields.length),
     ("completed", .jnum ts.completedFields.length),
     ("remaining", .jnum ((ts.formFields.length : Int) - ts.completedFields.length))]

def relatedTermsMap : List (String × List String) :=
  [("name", ["full name", "first name", "last name"]),
   ("email", ["e-mail", "contact", "electronic mail"]),
   ("phone", ["telephone", "cell", "mobile", "contact number"]),
   ("address", ["location", "residence", "mailing address", "city", "state", "zip"]),
   ("education", ["degree", "university", "college", "school", "academic", "qualification"]),
   ("experience", ["work", "job", "employment", "career", "professional"]),
   ("skills", ["abilities", "competencies", "expertise", "proficiencies", "qualifications"]),
   ("projects", ["works", "assignments", "portfolio"])]

def dropTrailingS (q : String) : String :=
  match (strChars q).reverse with
  | 's' :: rest => charsStr rest.reverse
  | _ => q

def getRelatedTerms (query : String) : List String :=
  match relatedTermsMap.find? (fun kv => includesCI query kv.1) with
  | some kv => kv.2
  | none =>
    [query ++ "s", dropTrailingS query,
     charsStr (lowerChars (strChars query)), charsStr (upperChars (strChars query))]

/-- Two context lines before/after line `i`, joined by newlines. -/
def contextSlice (lines : List String) (i : Nat) : String :=
  String.intercalate "\n" ((lines.drop (i - 2)).take (min (lines.length - 1) (i + 2) + 1 - (i - 2)))

def searchResume (ts : ToolsState) (query : Option String) : JVal :=
  let q := query.getD "undefined"
  let lines := splitNl ts.resumeContent
  let direct := (List.range lines.length).filterMap (fun i =>
    if regexTestCI q (lines.getD i "") then
      some (JVal.jobj [("text", .jstr (contextSlice lines i)), ("confidence", .jstr "Medium")])
    else none)
  let found :=
    if direct.isEmpty then
      (getRelatedTerms q).filterMap (fun t =>
        (lines.find? (fun l => regexTestCI t l)).map (fun l =>
          JVal.jobj [("text", .jstr l), ("confidence", .jstr "Low")]))
    else direct
  .jobj
    ((match query with | some qs => [("query", JVal.jstr qs)] | none => []) ++
     [("matches", .jarr (if found.isEmpty
        then [.jobj [("text", .jstr "No matches found"), ("confidence", .jstr "Low")]]
        else found))])

def filledToJ (f : FilledVal) : JVal :=
  .jobj
    ([("id", .jstr f.id)] ++
     (match f.value with | some v => [("value", JVal.jstr v)] | none => []) ++
     [("confidence", .jstr f.confidence)])

def saveProgress (ts : ToolsState) : JVal :=
  .jobj
    [("total_fields", .jnum ts.formFields.length),
     ("completed_fields", .jnum ts.completedFields.length),
     ("completion_percentage", .jnum ts.completionStatus),
     ("fields", .jarr (ts.completedFields.map filledToJ))]

/-- `executeTool`: dispatch to the tool implementations.  `.error` models a
thrown exception; only an unknown tool name throws (every tool body wraps
its work in its own try/catch and returns an `{error: …}` object instead). -/
def executeTool (ts : ToolsState) (tool : String) (args : JVal) :
    Except String JVal × ToolsState :=
  if tool = "analyze_resume" then
    let p := analyzeResume ts
    (.ok p.1, p.2)
  else if tool = "get_resume_section" then
    (.ok (getResumeSection ts (args.getStr "section_name")), ts)
  else if tool = "get_next_field" then
    let p := getNextField ts
    (.ok p.1, p.2)
  else if tool = "check_field" then (.ok (checkField ts (args.getStr "field_id")), ts)
  else if tool = "fill_field" then
    let p := fillField ts (args.getStr "field_id") (args.getStr "value") (args.getStr "confidence")
    (.ok p.1, p.2)
  else if tool = "list_fields" then (.ok (listFields ts), ts)
  else if tool = "search_resume" then (.ok (searchResume ts (args.getStr "query")), ts)
  else if tool = "save_progress" then (.ok (saveProgress ts), ts)
  else (.error ("Unknown tool: " ++ tool), ts)

/-! ### The Agent Orchestrator (`handleAgentResponse`, `runToolBasedAgent`)

The model transport is the external collaborator `apiProvider`; it is
embedded as `transport : Nat → Except String AgentResponse`, where
`transport 0` is the response to the initial request and `transport (k+1)`
the response fetched at the end of loop iteration `k`.  `.error msg` models
a thrown transport exception.  `clock k` is `Date.now() - startTime` at the
top of loop iteration `k`. -/

/-- A conversation message.  `assistantToolCall` is the echoed
`{role: 'assistant', content: '', tool_calls: [...]}` message; `tool` the
`{role: 'tool', tool_call_id, content}` result message.  An id of `none`
stands for the `Math.random()`-generated id shared by an echo/result pair
whose call carried no id. -/
inductive Msg where
  | system (content : String)
  | user (content : String)
  | assistant (content : String)
  | assistantToolCall (id : Option String) (name : String) (args : JVal)
  | tool (tool_call_id : Option String) (content : String)

/-- The `options` argument of `handleAgentResponse`; `none` models an
absent property (JS `options.x || default` also replaces `0`). -/
structure RunOptions where
  maxAttempts : Option Nat
  maxConsecutiveErrors : Option Nat
  maxRunTime : Option Nat

def orDefault (o : Option Nat) (d : Nat) : Nat :=
  match o with
  | some n => if n = 0 then d else n
  | none => d

def defaultOptions : RunOptions := ⟨none, none, none⟩

/-- The mutable locals of `handleAgentResponse` plus the class state. -/
structure LoopState where
  ts : ToolsState
  attemptCount : Nat
  consecutiveErrorCount : Nat
  fieldAttempts : List (String × Nat)
  completed : List (String × FilledVal)
  conversation : List Msg

/-- `toolCall.args || {}`: a falsy args value degrades to `{}`. -/
def argsOrEmpty : JVal → JVal
  | .jnull => .jobj []
  | .jbool false => .jobj []
  | .jnum 0 => .jobj []
  | .jstr "" => .jobj []
  | other => other

/-- The body of the `for (const toolCall of toolCalls)` loop: one dispatch.
The returned flag is `true` when the body executed `break` (all fields
processed, or the consecutive-error circuit breaker) — which only ends the
inner loop, not the run. -/
def processCall (maxConsecutiveErrors : Nat) (st : LoopState) (tc : ToolCall) :
    LoopState × Bool :=
  let st := { st with attemptCount := st.attemptCount + 1 }
  let args := argsOrEmpty tc.args
  match executeTool st.ts tc.tool args with
  | (Except.ok toolResult, ts') =>
    let st := { st with ts := ts' }
    let st :=
      if tc.tool = "fill_field" && truthyStr (args.getStr "field_id") then
        let fieldId := (args.getStr "field_id").getD ""
        let completed := mapSet fieldId
          (⟨fieldId, args.getStr "value", strOr (args.getStr "confidence") "Medium"⟩ : FilledVal)
          st.completed
        { st with
          completed := completed,
          ts := { st.ts with
            completionStatus := roundPct completed.length st.ts.formFields.length } }
      else st
    if tc.tool = "get_next_field" && (toolResult.getNum "remaining" == some 0) then
      (st, true)
    else
      let st := { st with conversation := st.conversation ++
        [Msg.assistantToolCall tc.id tc.tool args, Msg.tool tc.id (jsonStringify toolResult)] }
      ({ st with consecutiveErrorCount := 0 }, false)
  | (Except.error emsg, ts') =>
    let st := { st with ts := ts' }
    let st :=
      if tc.tool = "fill_field" && truthyStr (args.getStr "field_id") then
        let fieldId := (args.getStr "field_id").getD ""
        let n := (mapGet fieldId st.fieldAttempts).getD 0 + 1
        let st := { st with fieldAttempts := mapSet fieldId n st.fieldAttempts }
        if 3 ≤ n then
          { st with conversation := st.conversation ++
            [Msg.assistant ("Error filling field \"" ++ fieldId ++ "\" after multiple attempts.")] }
        else
          { st with conversation := st.conversation ++
            [Msg.assistant ("Error when using " ++ tc.tool ++ ": " ++ emsg ++ ".")] }
      else
        { st with conversation := st.conversation ++
          [Msg.assistant ("Error when using " ++ tc.tool ++ ": " ++ emsg ++ ".")] }
    let st := { st with consecutiveErrorCount := st.consecutiveErrorCount + 1 }
    (st, maxConsecutiveErrors ≤ st.consecutiveErrorCount)

def processCalls (maxConsecutiveErrors : Nat) : LoopState → List ToolCall → LoopState
  | st, [] => st
  | st, tc :: rest =>
    let p := processCall maxConsecutiveErrors st tc
    if p.2 then p.1 else processCalls maxConsecutiveErrors p.1 rest

/-- The raw response object, as it would be `JSON.stringify`-ed; the
transport's response is modeled by its `content` / `tool_calls` fields. -/
def natToJ (c : NativeToolCall) : JVal :=
  .jobj
    [("id", .jstr c.id),
     ("function", .jobj
       ([("name", .jstr c.name)] ++
        (match c.arguments with
         | .argStr s => [("arguments", JVal.jstr s)]
         | .argObj v => [("arguments", v)]
         | .argAbsent => [])))]

/-- `currentResponse.content || JSON.stringify(currentResponse)` for the
"no tool calls" push (a string response is pushed as-is). -/
def respContent : AgentResponse → String
  | .text s => s
  | .native content calls =>
    if content ≠ "" then content
    else jsonStringify (.jobj [("content", .jstr content),
                               ("tool_calls", .jarr (calls.map natToJ))])

/-- How the `while` loop ended: normally, or by an exception reaching the
outer `catch` (only `extractToolCalls`' `ReferenceError` can). -/
inductive LoopOutcome where
  | finished
  | caught (msg : String)

/-- The `while (attemptCount < maxAttempts)` loop.  The fuel argument is
instantiated with `maxAttempts + 1`, which is sufficient: every iteration
that recurses has dispatched at least one call, increasing `attemptCount`. -/
def loopGo (maxAttempts maxConsecutiveErrors maxRunTime : Nat)
    (transport : Nat → Except String AgentResponse) (clock : Nat → Nat) :
    Nat → Nat → LoopState → AgentResponse → LoopState × LoopOutcome
  | 0, _, st, _ => (st, .finished)
  | fuel + 1, k, st, resp =>
    if st.attemptCount < maxAttempts then
      if maxRunTime < clock k then (st, .finished)
      else
        match extractToolCalls resp with
        | .error msg => (st, .caught msg)
        | .ok [] =>
          ({ st with conversation := st.conversation ++ [Msg.assistant (respContent resp)] },
           .finished)
        | .ok (tc :: tcs) =>
          let st' := processCalls maxConsecutiveErrors st (tc :: tcs)
          match transport (k + 1) with
          | .error _ => (st', .finished)
          | .ok resp' =>
            loopGo maxAttempts maxConsecutiveErrors maxRunTime transport clock fuel (k + 1) st' resp'
    else (st, .finished)

structure RunResult where
  fields : List FilledVal
  summary : String
  error : Bool

def summaryLine (completedCount total : Nat) : String :=
  "Form filling " ++ (if total ≤ completedCount then "complete" else "partially complete") ++
    ". Filled " ++ toString completedCount ++ "/" ++ toString total ++ " fields."

/-- `handleAgentResponse(response, conversation, options)`: returns the
result object and the final (mutated) conversation list. -/
def handleAgentResponse (ts : ToolsState) (response : AgentResponse)
    (conversation : List Msg) (opts : RunOptions)
    (transport : Nat → Except String AgentResponse) (clock : Nat → Nat) :
    RunResult × List Msg :=
  let maxAttempts := orDefault opts.maxAttempts 15
  let maxConsecutiveErrors := orDefault opts.maxConsecutiveErrors 5
  let maxRunTime := orDefault opts.maxRunTime 300000
  let st0 : LoopState := ⟨ts, 0, 0, [], [], conversation⟩
  let out := loopGo maxAttempts maxConsecutiveErrors maxRunTime transport clock
    (maxAttempts + 1) 0 st0 response
  match out.2 with
  | .finished =>
    ({ fields := out.1.completed.map Prod.snd,
       summary := summaryLine out.1.completed.length out.1.ts.formFields.length,
       error := false },
     out.1.conversation)
  | .caught msg =>
    ({ fields := [], summary := "Error handling agent response: " ++ msg, error := true },
     out.1.conversation)

def generateSystemMessage (isMistral : Bool) (ts : ToolsState) : String :=
  let base := "You are a form-filling assistant with access to the following tools:\n\n1. analyze_resume() - Analyzes the resume to extract key information\n2. get_resume_section(section_name) - Gets a specific section from the resume (e.g., \"education\", \"experience\", \"skills\")\n3. get_next_field() - Gets the next field to fill out in the form\n4. check_field(field_id) - Gets details about a specific field\n5. fill_field(field_id, value, confidence) - Fills a field with a value and confidence rating\n6. list_fields() - Lists all fields in the form\n7. search_resume(query) - Searches the resume for specific information\n8. save_progress() - Saves current progress and returns a summary\n\nCurrent state: " ++ ts.currentState ++ "\nFields completed: " ++ toString ts.completedFields.length ++ "/" ++ toString ts.formFields.length
  if isMistral then
    base ++ "\n\nFollow these steps REPEATEDLY:\n1. Call get_next_field to get the field_id and details of the next form field.\n2. Based on the field details, decide what information is needed from the resume.\n3. Use analyze_resume or search_resume to find the required information.\n4. Call fill_field with the field_id from step 1, the value from step 3, and a confidence rating.\n5. If get_next_field indicates no fields remain, stop."
  else
    base ++ "\n\nFollow these steps REPEATEDLY:\n1. Call `get_next_field()` to get the `field_id` and details of the next form field.\n2. Based on the field details, decide what information is needed (e.g., \x27full name\x27, \x27email\x27, \x27job title\x27).\n3. Use `analyze_resume()` or `search_resume(query=\x27...\x27)` to find the required information in the resume content.\n4. Call `fill_field(field_id=\x27THE_EXACT_ID_FROM_STEP_1\x27, value=\x27THE_VALUE_FROM_STEP_3\x27, confidence=\x27...\x27)`. **CRITICAL: Use the exact `field_id` you received from `get_next_field()` in step 1.**\n5. If `get_next_field()` indicates no fields remain, stop.\n\n**IMPORTANT:**\n- **ALWAYS use the `field_id` provided by `get_next_field()` when calling `fill_field()`.**\n- Do NOT invent field IDs.\n- Do NOT ask the user for information; use the tools to find it in the resume."

def generateInitialPrompt (isMistral : Bool) (ts : ToolsState) : String :=
  if isMistral then
    "I need you to fill out a form using information from a resume. There are " ++ toString ts.formFields.length ++ " fields to fill.\n\nStart by calling get_next_field to get the first field that needs to be filled."
  else
    "I need you to fill out a form using information from a resume. There are " ++ toString ts.formFields.length ++ " fields to fill.\n\nYou have tools available to:\n1. Analyze the resume\n2. Get specific resume sections\n3. Get form fields to fill\n4. Fill fields with values\n\nFirst, analyze the resume to understand the candidate\x27s background, then proceed to fill form fields one by one. Use the get_next_field() tool to start."

/-- `runToolBasedAgent`: seeds the conversation and runs the loop.  A
transport exception on the initial request is caught here, returning the
class-level `completedFields` with an error summary; nothing is rethrown. -/
def runToolBasedAgent (isMistral : Bool) (ts : ToolsState) (opts : RunOptions)
    (transport : Nat → Except String AgentResponse) (clock : Nat → Nat) : RunResult :=
  let conversation : List Msg :=
    [.system (generateSystemMessage isMistral ts), .user (generateInitialPrompt isMistral ts)]
  match transport 0 with
  | .error msg =>
    { fields := ts.completedFields,
      summary := "Error running form filling agent: " ++ msg,
      error := true }
  | .ok resp => (handleAgentResponse ts resp conversation opts transport clock).1

/-- `n` successive `getNextField` calls (state after the `n`-th call). -/
def nextFieldIter (ts : ToolsState) : Nat → ToolsState
  | 0 => ts
  | n + 1 => (getNextField (nextFieldIter ts n)).2

/-- Is this message an echoed assistant tool call (one per dispatched,
successfully executed tool)? -/
def isEchoMsg : Msg → Bool
  | .assistantToolCall _ _ _ => true
  | _ => false

/-- The canonical argument object of the spec's parser-equivalence example. -/
def c1CanonArgs : JVal :=
  .jobj [("field_id", .jstr "f1"), ("value", .jstr "Jane Doe"), ("confidence", .jstr "High")]

/-! ## Theorems -/

/-- **C1, counterexample.**  The four shapes of the claim do *not* yield the
same canonical call.  Shape (c) — a `Tool: fill_field` line followed by a
`Parameters: {...}` blob — yields **empty** arguments, because the
tool-block regex itself consumes the blob and the parameter search then
looks only *after* the match; and shape (b) — inline
`fill_field("f1", "Jane Doe", "High")` — keeps the literal quote characters
around `value` and `confidence`, because `splitCsvRespectingQuotes` only
returns the second and third tokens via its `[^,]+` alternative (their
leading space makes the quoted alternative miss) and `parseArgs` never
strips quotes from them.  Shapes (a) and (d) do produce the canonical
arguments, so (b) and (c) disagree with them. -/
theorem C1_shape_c_empty_args_cex :
    extractToolCalls (.text ("Tool: fill_field\nParameters: \x7b\"field_id\":\"f1\",\"value\":\"Jane Doe\",\"confidence\":\"High\"\x7d")) =
      .ok [⟨none, "fill_field", .jobj []⟩] ∧
    extractToolCalls (.text "fill_field(\"f1\", \"Jane Doe\", \"High\")") =
      .ok [⟨none, "fill_field",
        .jobj [("field_id", .jstr "f1"), ("value", .jstr "\"Jane Doe\""),
               ("confidence", .jstr "\"High\"")]⟩] ∧
    extractToolCalls (.native "" [⟨"id1", "fill_field", .argObj c1CanonArgs⟩]) =
      .ok [⟨some "id1", "fill_field", c1CanonArgs⟩] ∧
    jsonStringify (JVal.jobj []) ≠ jsonStringify c1CanonArgs ∧
    jsonStringify (JVal.jobj [("field_id", .jstr "f1"), ("value", .jstr "\"Jane Doe\""),
      ("confidence", .jstr "\"High\"")]) ≠ jsonStringify c1CanonArgs :=
  ⟨rfl, rfl, rfl, by decide, by decide⟩

/-- **C1, amended.**  Exact parser outputs for the four shapes expressing
"fill field `f1` with `Jane Doe`, confidence `High`": the native structured
call (a) and the embedded JSON action (d) both yield the canonical
arguments `{field_id: "f1", value: "Jane Doe", confidence: "High"}` (the
id is the carried one for (a) and a generated one for (d)); the inline
direct call (b) yields `field_id "f1"` but value `"Jane Doe"` and
confidence `"High"` wrapped in literal double quotes; the labeled block (c)
yields `fill_field` with empty arguments. -/
theorem C1_shape_equivalence_amended :
    extractToolCalls (.native "" [⟨"id1", "fill_field", .argObj c1CanonArgs⟩]) =
      .ok [⟨some "id1", "fill_field", c1CanonArgs⟩] ∧
    extractToolCalls (.text "\x7b\"action\":\"fill_field\",\"field_id\":\"f1\",\"value\":\"Jane Doe\",\"confidence\":\"High\"\x7d") =
      .ok [⟨none, "fill_field", c1CanonArgs⟩] ∧
    extractToolCalls (.text "fill_field(\"f1\", \"Jane Doe\", \"High\")") =
      .ok [⟨none, "fill_field",
        .jobj [("field_id", .jstr "f1"), ("value", .jstr "\"Jane Doe\""),
               ("confidence", .jstr "\"High\"")]⟩] ∧
    extractToolCalls (.text ("Tool: fill_field\nParameters: \x7b\"field_id\":\"f1\",\"value\":\"Jane Doe\",\"confidence\":\"High\"\x7d")) =
      .ok [⟨none, "fill_field", .jobj []⟩] :=
  ⟨rfl, rfl, rfl, rfl⟩

/-- **C3** (`code_bug` evaluation).  Dispatching `fill_field` with an id
absent from the registry: `fillField` itself returns a not-found error
object (and leaves the class state unchanged), yet `handleAgentResponse`
records a `FilledField` for that id anyway — its completion tracking runs
on every non-throwing `fill_field` dispatch without checking the tool
result — so the caller's final `fields` list contains the never-filled
field (and the summary even counts it). -/
theorem C3_failed_fill_recorded :
    (fillField (mkToolsState "Jane Doe" [⟨"f1", "Field one", "text", false, ""⟩])
        (some "ghost") (some "v") (some "High")).1 =
      .jobj [("error", .jstr "Field with ID \"ghost\" not found.")] ∧
    (fillField (mkToolsState "Jane Doe" [⟨"f1", "Field one", "text", false, ""⟩])
        (some "ghost") (some "v") (some "High")).2 =
      mkToolsState "Jane Doe" [⟨"f1", "Field one", "text", false, ""⟩] ∧
    (handleAgentResponse (mkToolsState "Jane Doe" [⟨"f1", "Field one", "text", false, ""⟩])
        (.native "" [⟨"c1", "fill_field", .argObj (.jobj [("field_id", .jstr "ghost"),
          ("value", .jstr "v"), ("confidence", .jstr "High")])⟩])
        [] defaultOptions
        (fun _ => .ok (.text "done")) (fun _ => 0)).1 =
      ⟨[⟨"ghost", some "v", "High"⟩], "Form filling complete. Filled 1/1 fields.", false⟩ :=
  ⟨rfl, rfl, rfl⟩

/-- **C2, counterexample.**  A `fill_field` naming an unknown id does *not*
increment `consecutiveErrorCount` or the per-field attempt counter: the
tool returns an `{error: …}` object instead of throwing, so the success
path runs — `consecutiveErrorCount` is *reset* from 1 to 0, `fieldAttempts`
stays empty, and the conversation receives a normal assistant-echo plus
tool-result message (whose content is the error JSON), not the
tool-error assistant message of the catch path. -/
theorem C2_missing_field_counters_cex :
    (processCall 5
        ⟨mkToolsState "Jane Doe" [⟨"f1", "Field one", "text", false, ""⟩], 0, 1, [], [], []⟩
        ⟨some "c1", "fill_field", .jobj [("field_id", .jstr "ghost"),
          ("value", .jstr "v"), ("confidence", .jstr "High")]⟩).1.consecutiveErrorCount = 0 ∧
    (processCall 5
        ⟨mkToolsState "Jane Doe" [⟨"f1", "Field one", "text", false, ""⟩], 0, 1, [], [], []⟩
        ⟨some "c1", "fill_field", .jobj [("field_id", .jstr "ghost"),
          ("value", .jstr "v"), ("confidence", .jstr "High")]⟩).1.fieldAttempts = [] ∧
    (processCall 5
        ⟨mkToolsState "Jane Doe" [⟨"f1", "Field one", "text", false, ""⟩], 0, 1, [], [], []⟩
        ⟨some "c1", "fill_field", .jobj [("field_id", .jstr "ghost"),
          ("value", .jstr "v"), ("confidence", .jstr "High")]⟩).1.conversation =
      [Msg.assistantToolCall (some "c1") "fill_field"
         (.jobj [("field_id", .jstr "ghost"), ("value", .jstr "v"), ("confidence", .jstr "High")]),
       Msg.tool (some "c1") "\x7b\"error\":\"Field with ID \\\"ghost\\\" not found.\"\x7d"] :=
  ⟨rfl, rfl, rfl⟩

/-- **C7, counterexample.**  When the initial transport request throws, the
caller does *not* receive a `filled/total` summary fraction (and nothing
propagates as a thrown error): `runToolBasedAgent` catches the exception
and returns a result whose summary is an error message containing no
fraction at all, with `error: true`. -/
theorem C7_error_summary_no_fraction_cex :
    runToolBasedAgent true (mkToolsState "Jane Doe" [⟨"f1", "Field one", "text", false, ""⟩])
        defaultOptions (fun _ => .error "boom") (fun _ => 0) =
      ⟨[], "Error running form filling agent: boom", true⟩ ∧
    includesS "Error running form filling agent: boom" "/" = false :=
  ⟨rfl, by decide⟩

/-- **C8, counterexample.**  On the native structured path, a tool call
with an unknown name is *not* dropped at parse time: `extractToolCalls`
emits it unfiltered, and dispatching it throws `Unknown tool`, which
surfaces as an error message in the conversation and increments
`consecutiveErrorCount` — contradicting "never surfaced / never counted". -/
theorem C8_native_unknown_tool_cex :
    extractToolCalls (.native "" [⟨"b1", "bogus_tool", .argAbsent⟩]) =
      .ok [⟨some "b1", "bogus_tool", .jobj []⟩] ∧
    (processCall 5
        ⟨mkToolsState "Jane Doe" [⟨"f1", "Field one", "text", false, ""⟩], 0, 0, [], [], []⟩
        ⟨some "b1", "bogus_tool", .jobj []⟩).1.consecutiveErrorCount = 1 ∧
    (processCall 5
        ⟨mkToolsState "Jane Doe" [⟨"f1", "Field one", "text", false, ""⟩], 0, 0, [], [], []⟩
        ⟨some "b1", "bogus_tool", .jobj []⟩).1.conversation =
      [Msg.assistant "Error when using bogus_tool: Unknown tool: bogus_tool."] :=
  ⟨rfl, rfl, rfl⟩

/-- **C6, counterexample.**  The `attemptsUsed` budget is *not* evaluated
after every individual tool call: it is only checked once per model
response, at the top of the outer loop.  With `maxAttempts = 3`, a single
response carrying five `get_next_field` calls is dispatched in full — the
final conversation contains five assistant tool-call echoes (one per
successfully dispatched call), i.e. calls 4 and 5 were dispatched after the
budget was already exhausted, with no short-circuit. -/
theorem C6_budget_not_per_call_cex :
    ((handleAgentResponse
        (mkToolsState "r"
          [⟨"a", "", "t", false, ""⟩, ⟨"b", "", "t", false, ""⟩, ⟨"c", "", "t", false, ""⟩,
           ⟨"d", "", "t", false, ""⟩, ⟨"e", "", "t", false, ""⟩, ⟨"f", "", "t", false, ""⟩])
        (.native ""
          [⟨"g1", "get_next_field", .argAbsent⟩, ⟨"g2", "get_next_field", .argAbsent⟩,
           ⟨"g3", "get_next_field", .argAbsent⟩, ⟨"g4", "get_next_field", .argAbsent⟩,
           ⟨"g5", "get_next_field", .argAbsent⟩])
        [] ⟨some 3, none, none⟩
        (fun _ => .ok (.text "done")) (fun _ => 0)).2.filter isEchoMsg).length = 5 :=
  rfl

/-- Dispatching `fill_field` for an id that is **not** in the registry:
`fillField` returns an `{error: …}` object without throwing, so the success
path of the dispatch loop runs — the attempt counter advances, the
consecutive-error counter resets to 0, the per-field attempt map is
untouched, a `FilledField` is still recorded, and the conversation gets a
normal echo + tool-result pair whose content is the error JSON. -/
theorem processCall_fill_missing (m : Nat) (st : LoopState) (cid : Option String)
    (id v c : String) (hid : id ≠ "") (hc : c ≠ "")
    (hreg : ∀ f ∈ st.ts.formFields, f.id ≠ id) :
    processCall m st ⟨cid, "fill_field",
        .jobj [("field_id", .jstr id), ("value", .jstr v), ("confidence", .jstr c)]⟩ =
      ({ st with
          attemptCount := st.attemptCount + 1,
          consecutiveErrorCount := 0,
          completed := mapSet id ⟨id, some v, c⟩ st.completed,
          ts := { st.ts with
            completionStatus := roundPct (mapSet id (⟨id, some v, c⟩ : FilledVal) st.completed).length st.ts.formFields.length },
          conversation := st.conversation ++
            [Msg.assistantToolCall cid "fill_field"
               (.jobj [("field_id", .jstr id), ("value", .jstr v), ("confidence", .jstr c)]),
             Msg.tool cid (jsonStringify (.jobj [("error",
               .jstr ("Field with ID \"" ++ id ++ "\" not found."))]))] },
       false) := by
  have hfind : st.ts.formFields.find? (fun f => f.id == id) = none := by
    rw [List.find?_eq_none]
    intro f hf
    simp [hreg f hf]
  simp only [processCall, executeTool, fillField, argsOrEmpty, JVal.getStr, JVal.getField,
    mapGet, truthyStr, strOr, JVal.getNum]
  simp [hfind, hid, hc]

/-- Dispatching `fill_field` for a registered id: the fill succeeds, the
class-level `completedFields` array is appended to, the run-level map is
upserted, and the conversation gets the echo + success-result pair. -/
theorem processCall_fill_found (m : Nat) (st : LoopState) (cid : Option String)
    (id v c : String) (f : FormField) (hid : id ≠ "") (hc : c ≠ "")
    (hfind : st.ts.formFields.find? (fun g => g.id == id) = some f) :
    processCall m st ⟨cid, "fill_field",
        .jobj [("field_id", .jstr id), ("value", .jstr v), ("confidence", .jstr c)]⟩ =
      ({ st with
          attemptCount := st.attemptCount + 1,
          consecutiveErrorCount := 0,
          completed := mapSet id ⟨id, some v, c⟩ st.completed,
          ts := { st.ts with
            completedFields := st.ts.completedFields ++ [⟨id, some v, c⟩],
            completionStatus := roundPct (mapSet id (⟨id, some v, c⟩ : FilledVal) st.completed).length st.ts.formFields.length },
          conversation := st.conversation ++
            [Msg.assistantToolCall cid "fill_field"
               (.jobj [("field_id", .jstr id), ("value", .jstr v), ("confidence", .jstr c)]),
             Msg.tool cid (jsonStringify (.jobj
               [("field_id", .jstr id), ("value", .jstr v), ("confidence", .jstr c),
                ("status", .jstr "filled"),
                ("message", .jstr ("Field \x27" ++ id ++ "\x27 filled with value \x27" ++ v ++ "\x27"))]))] },
       false) := by
  simp only [processCall, executeTool, fillField, argsOrEmpty, JVal.getStr, JVal.getField,
    mapGet, truthyStr, strOr, JVal.getNum]
  simp [hfind, hid, hc]

theorem processCalls_single (m : Nat) (st : LoopState) (tc : ToolCall) :
    processCalls m st [tc] = (processCall m st tc).1 := by
  show (if (processCall m st tc).2 = true then (processCall m st tc).1
        else processCalls m (processCall m st tc).1 []) = (processCall m st tc).1
  split <;> rfl

theorem processCalls_pair (m : Nat) (st : LoopState) (t1 t2 : ToolCall)
    (h : (processCall m st t1).2 = false) :
    processCalls m st [t1, t2] = (processCall m (processCall m st t1).1 t2).1 := by
  show (if (processCall m st t1).2 = true then (processCall m st t1).1
        else processCalls m (processCall m st t1).1 [t2]) = (processCall m (processCall m st t1).1 t2).1
  rw [h]
  simp only [Bool.false_eq_true, if_false]
  exact processCalls_single m _ t2

/-- **C2, amended.**  A `fill_field` naming an id absent from the registry
is *not* treated as an error by the orchestrator: the not-found condition
comes back as an `{error: …}` **return value**, which is appended to the
conversation as an ordinary tool-result message; `consecutiveErrorCount`
is reset to 0 (not incremented), the per-field attempt counter is not
touched (it only counts thrown exceptions), the dispatch is not blocked no
matter how often the same id was tried before (the map in `st` is
arbitrary, including counts ≥ 3), and a `FilledField` for the unknown id is
even recorded. -/
theorem C2_missing_field_behavior (m : Nat) (st : LoopState) (cid : Option String)
    (id v c : String) (hid : id ≠ "") (hc : c ≠ "")
    (hreg : ∀ f ∈ st.ts.formFields, f.id ≠ id) :
    (processCall m st ⟨cid, "fill_field",
        .jobj [("field_id", .jstr id), ("value", .jstr v), ("confidence", .jstr c)]⟩).1.consecutiveErrorCount = 0 ∧
    (processCall m st ⟨cid, "fill_field",
        .jobj [("field_id", .jstr id), ("value", .jstr v), ("confidence", .jstr c)]⟩).1.fieldAttempts = st.fieldAttempts ∧
    (processCall m st ⟨cid, "fill_field",
        .jobj [("field_id", .jstr id), ("value", .jstr v), ("confidence", .jstr c)]⟩).1.conversation =
      st.conversation ++
        [Msg.assistantToolCall cid "fill_field"
           (.jobj [("field_id", .jstr id), ("value", .jstr v), ("confidence", .jstr c)]),
         Msg.tool cid (jsonStringify (.jobj [("error",
           .jstr ("Field with ID \"" ++ id ++ "\" not found."))]))] ∧
    (processCall m st ⟨cid, "fill_field",
        .jobj [("field_id", .jstr id), ("value", .jstr v), ("confidence", .jstr c)]⟩).2 = false := by
  rw [processCall_fill_missing m st cid id v c hid hc hreg]
  exact ⟨rfl, rfl, rfl, rfl⟩

/-- Witness for C2's amended theorem at a concrete state: one registered
field `f1`, a prior `consecutiveErrorCount` of 1, and a `fill_field` for
the unregistered id `ghost`. -/
theorem C2_missing_field_behavior_witness :
    (processCall 5
        ⟨mkToolsState "r" [⟨"f1", "Field one", "text", false, ""⟩], 0, 1, [("ghost", 3)], [], []⟩
        ⟨some "c1", "fill_field", .jobj [("field_id", .jstr "ghost"),
          ("value", .jstr "v"), ("confidence", .jstr "High")]⟩).1.consecutiveErrorCount = 0 ∧
    (processCall 5
        ⟨mkToolsState "r" [⟨"f1", "Field one", "text", false, ""⟩], 0, 1, [("ghost", 3)], [], []⟩
        ⟨some "c1", "fill_field", .jobj [("field_id", .jstr "ghost"),
          ("value", .jstr "v"), ("confidence", .jstr "High")]⟩).1.fieldAttempts = [("ghost", 3)] := by
  have h := C2_missing_field_behavior 5
    ⟨mkToolsState "r" [⟨"f1", "Field one", "text", false, ""⟩], 0, 1, [("ghost", 3)], [], []⟩
    (some "c1") "ghost" "v" "High" (by decide) (by decide) (by decide)
  exact ⟨h.1, h.2.1⟩

/-- **C10.**  On the native structured path, a string `arguments` payload
that is not valid JSON (or is empty/whitespace-only) does not throw and
does not drop the call: the `JSON.parse` failure is caught and the call is
emitted with empty arguments `{}`. -/
theorem C10_malformed_native_args (content cid name s : String)
    (hname : name ≠ "") (hjson : jsonParse s = none ∨ trimS s = "") :
    extractToolCalls (.native content [⟨cid, name, .argStr s⟩]) =
      .ok [⟨some cid, name, .jobj []⟩] := by
  simp only [extractToolCalls, extractNative, List.filterMap]
  rcases hjson with h | h
  · by_cases ht : trimS s = ""
    · simp [hname, ht]
    · simp [hname, ht, h]
  · simp [hname, h]

/-- Witness for C10 at the concrete malformed payload `"not json"`. -/
theorem C10_malformed_native_args_witness :
    extractToolCalls (.native "" [⟨"i9", "fill_field", .argStr "not json"⟩]) =
      .ok [⟨some "i9", "fill_field", .jobj []⟩] :=
  C10_malformed_native_args "" "i9" "fill_field" "not json" (by decide) (Or.inl rfl)

theorem getNextField_formFields (ts : ToolsState) :
    (getNextField ts).2.formFields = ts.formFields := by
  unfold getNextField
  split <;> rfl

theorem getNextField_cursor_adv (ts : ToolsState) :
    (getNextField ts).2.currentFieldIndex =
      if ts.formFields.length ≤ ts.currentFieldIndex then ts.currentFieldIndex
      else ts.currentFieldIndex + 1 := by
  unfold getNextField
  split <;> simp_all

theorem nextFieldIter_formFields (ts : ToolsState) (n : Nat) :
    (nextFieldIter ts n).formFields = ts.formFields := by
  induction n with
  | zero => rfl
  | succ n ih => rw [nextFieldIter, getNextField_formFields, ih]

/-- After `n` calls on a fresh registry the cursor sits at `min n N`: it
only ever advances, and clamps at the end. -/
theorem nextFieldIter_cursor (resume : String) (fields : List FormField) (n : Nat) :
    (nextFieldIter (mkToolsState resume fields) n).currentFieldIndex = min n fields.length := by
  induction n with
  | zero => simp [nextFieldIter, mkToolsState]
  | succ n ih =>
    rw [nextFieldIter, getNextField_cursor_adv, nextFieldIter_formFields, ih]
    simp only [mkToolsState]
    simp only [Nat.min_def]
    split_ifs <;> omega

/-- The `(n+1)`-th `getNextField` call on a fresh registry with `n < N`
returns the `n`-th registered field's payload. -/
theorem getNextField_iter_payload (resume : String) (fields : List FormField) (n : Nat)
    (h : n < fields.length) :
    (getNextField (nextFieldIter (mkToolsState resume fields) n)).1 =
      .jobj [("field_id", .jstr (fields.get ⟨n, h⟩).id),
             ("label", .jstr (fieldLabel (fields.get ⟨n, h⟩))),
             ("type", .jstr (fields.get ⟨n, h⟩).ftype),
             ("required", .jbool (fields.get ⟨n, h⟩).required),
             ("field_index", .jnum n),
             ("remaining", .jnum ((fields.length : Int) - (n + 1)))] := by
  have hf : (nextFieldIter (mkToolsState resume fields) n).formFields = fields := by
    rw [nextFieldIter_formFields]
    rfl
  have hcur : (nextFieldIter (mkToolsState resume fields) n).currentFieldIndex = n := by
    rw [nextFieldIter_cursor]
    exact Nat.min_eq_left h.le
  unfold getNextField
  rw [dif_neg (by rw [hf, hcur]; omega)]
  simp [hf, hcur]

/-- Every `getNextField` call past the registry end returns the terminal
`{message, remaining: 0}` payload. -/
theorem getNextField_iter_term (resume : String) (fields : List FormField) (n : Nat)
    (h : fields.length ≤ n) :
    (getNextField (nextFieldIter (mkToolsState resume fields) n)).1 =
      .jobj [("message", .jstr "All fields have been processed."), ("remaining", .jnum 0)] := by
  have hf : (nextFieldIter (mkToolsState resume fields) n).formFields = fields := by
    rw [nextFieldIter_formFields]
    rfl
  have hc := nextFieldIter_cursor resume fields n
  unfold getNextField
  rw [dif_pos (by rw [hf, hc]; omega)]

/-- **C5.**  For a fresh registry of `N` fields: the cursor after `n` calls
is `min n N` (it only advances and never revisits an index); each of the
first `N` calls returns the non-terminal payload of the next registered
field, in registration order (call `n+1` returns field `n`, so every field
is returned exactly once and never twice); and the `(N+1)`-th and every
later call returns the terminal payload with `remaining: 0`. -/
theorem C5_cursor_monotone (resume : String) (fields : List FormField) (n : Nat) :
    ((nextFieldIter (mkToolsState resume fields) n).currentFieldIndex = min n fields.length) ∧
    (∀ h : n < fields.length,
      (getNextField (nextFieldIter (mkToolsState resume fields) n)).1 =
        .jobj [("field_id", .jstr (fields.get ⟨n, h⟩).id),
               ("label", .jstr (fieldLabel (fields.get ⟨n, h⟩))),
               ("type", .jstr (fields.get ⟨n, h⟩).ftype),
               ("required", .jbool (fields.get ⟨n, h⟩).required),
               ("field_index", .jnum n),
               ("remaining", .jnum ((fields.length : Int) - (n + 1)))]) ∧
    (fields.length ≤ n →
      (getNextField (nextFieldIter (mkToolsState resume fields) n)).1 =
        .jobj [("message", .jstr "All fields have been processed."), ("remaining", .jnum 0)]) :=
  ⟨nextFieldIter_cursor resume fields n,
   fun h => getNextField_iter_payload resume fields n h,
   fun h => getNextField_iter_term resume fields n h⟩

/-- Witness for C5 on a concrete two-field registry: the second call
returns the second field (with `remaining: 0` as a non-terminal payload),
and the third call returns the terminal payload. -/
theorem C5_cursor_monotone_witness :
    (getNextField (nextFieldIter
        (mkToolsState "r" [⟨"a", "La", "text", true, ""⟩, ⟨"b", "", "email", false, ""⟩]) 1)).1 =
      .jobj [("field_id", .jstr "b"), ("label", .jstr "b"), ("type", .jstr "email"),
             ("required", .jbool false), ("field_index", .jnum 1), ("remaining", .jnum 0)] ∧
    (getNextField (nextFieldIter
        (mkToolsState "r" [⟨"a", "La", "text", true, ""⟩, ⟨"b", "", "email", false, ""⟩]) 2)).1 =
      .jobj [("message", .jstr "All fields have been processed."), ("remaining", .jnum 0)] :=
  ⟨(C5_cursor_monotone "r" [⟨"a", "La", "text", true, ""⟩, ⟨"b", "", "email", false, ""⟩] 1).2.1
     (by decide),
   (C5_cursor_monotone "r" [⟨"a", "La", "text", true, ""⟩, ⟨"b", "", "email", false, ""⟩] 2).2.2
     (by decide)⟩

/-! ### Single-step characterizations of the dispatch loop -/

theorem loopGo_step_calls_ok (A C R : Nat) (transport : Nat → Except String AgentResponse)
    (clock : Nat → Nat) (fuel k : Nat) (st : LoopState) (resp resp' : AgentResponse)
    (tc : ToolCall) (tcs : List ToolCall)
    (hA : st.attemptCount < A) (hR : ¬ R < clock k)
    (hex : extractToolCalls resp = .ok (tc :: tcs))
    (htr : transport (k + 1) = .ok resp') :
    loopGo A C R transport clock (fuel + 1) k st resp =
      loopGo A C R transport clock fuel (k + 1) (processCalls C st (tc :: tcs)) resp' := by
  rw [loopGo]
  rw [if_pos hA, if_neg hR, hex, htr]

/-- A transport exception at the end of an iteration ends the run
immediately, keeping the state accumulated so far. -/
theorem loopGo_step_calls_err (A C R : Nat) (transport : Nat → Except String AgentResponse)
    (clock : Nat → Nat) (fuel k : Nat) (st : LoopState) (resp : AgentResponse)
    (tc : ToolCall) (tcs : List ToolCall) (msg : String)
    (hA : st.attemptCount < A) (hR : ¬ R < clock k)
    (hex : extractToolCalls resp = .ok (tc :: tcs))
    (htr : transport (k + 1) = .error msg) :
    loopGo A C R transport clock (fuel + 1) k st resp =
      (processCalls C st (tc :: tcs), .finished) := by
  rw [loopGo]
  rw [if_pos hA, if_neg hR, hex, htr]

theorem loopGo_step_noCalls (A C R : Nat) (transport : Nat → Except String AgentResponse)
    (clock : Nat → Nat) (fuel k : Nat) (st : LoopState) (resp : AgentResponse)
    (hA : st.attemptCount < A) (hR : ¬ R < clock k)
    (hex : extractToolCalls resp = .ok []) :
    loopGo A C R transport clock (fuel + 1) k st resp =
      ({ st with conversation := st.conversation ++ [Msg.assistant (respContent resp)] },
       .finished) := by
  rw [loopGo]
  rw [if_pos hA, if_neg hR, hex]

theorem loopGo_exit (A C R : Nat) (transport : Nat → Except String AgentResponse)
    (clock : Nat → Nat) (fuel k : Nat) (st : LoopState) (resp : AgentResponse)
    (hA : ¬ st.attemptCount < A) :
    loopGo A C R transport clock (fuel + 1) k st resp = (st, .finished) := by
  rw [loopGo]
  rw [if_neg hA]

theorem handleAgentResponse_finished (ts : ToolsState) (resp : AgentResponse)
    (conv : List Msg) (opts : RunOptions) (transport : Nat → Except String AgentResponse)
    (clock : Nat → Nat) (st' : LoopState)
    (h : loopGo (orDefault opts.maxAttempts 15) (orDefault opts.maxConsecutiveErrors 5)
          (orDefault opts.maxRunTime 300000) transport clock (orDefault opts.maxAttempts 15 + 1) 0
          ⟨ts, 0, 0, [], [], conv⟩ resp = (st', .finished)) :
    handleAgentResponse ts resp conv opts transport clock =
      ({ fields := st'.completed.map Prod.snd,
         summary := summaryLine st'.completed.length st'.ts.formFields.length,
         error := false }, st'.conversation) := by
  simp only [handleAgentResponse]
  rw [h]

/-- **C4.**  Last write wins: dispatching `fill_field(id, v1, High)` and
then `fill_field(id, v2, Low)` for a registered id within one run yields
exactly one `FilledField` for that id in the caller's final result — with
value `v2` and confidence `Low`. -/
theorem C4_last_write_wins (resume : String) (fields : List FormField) (conv : List Msg)
    (i1 i2 id v1 v2 : String)
    (transport : Nat → Except String AgentResponse) (clock : Nat → Nat)
    (hid : id ≠ "")
    (hreg : (fields.find? (fun f => f.id == id)).isSome)
    (ht : transport 1 = .ok (.text "done"))
    (hc0 : clock 0 ≤ 300000) (hc1 : clock 1 ≤ 300000) :
    (handleAgentResponse (mkToolsState resume fields)
        (.native "" [⟨i1, "fill_field", .argObj (.jobj [("field_id", .jstr id),
            ("value", .jstr v1), ("confidence", .jstr "High")])⟩,
          ⟨i2, "fill_field", .argObj (.jobj [("field_id", .jstr id),
            ("value", .jstr v2), ("confidence", .jstr "Low")])⟩])
        conv defaultOptions transport clock).1.fields = [⟨id, some v2, "Low"⟩] := by
  obtain ⟨f, hf⟩ := Option.isSome_iff_exists.mp hreg
  set t1 : ToolCall := ⟨some i1, "fill_field", .jobj [("field_id", .jstr id),
    ("value", .jstr v1), ("confidence", .jstr "High")]⟩ with hT1
  set t2 : ToolCall := ⟨some i2, "fill_field", .jobj [("field_id", .jstr id),
    ("value", .jstr v2), ("confidence", .jstr "Low")]⟩ with hT2
  set st0 : LoopState := ⟨mkToolsState resume fields, 0, 0, [], [], conv⟩ with hS0
  set st1 : LoopState := (processCall 5 st0 t1).1 with hS1
  set st2 : LoopState := (processCall 5 st1 t2).1 with hS2
  have h1 := processCall_fill_found 5 st0 (some i1) id v1 "High" f hid (by decide) hf
  have h2 := processCall_fill_found 5 st1 (some i2) id v2 "Low" f hid (by decide)
    (by rw [hS1, h1]; exact hf)
  have hb1 : (processCall 5 st0 t1).2 = false := by rw [hT1, h1]
  have hat0 : st0.attemptCount = 0 := by rw [hS0]
  have hcomp1 : st1.completed = [(id, (⟨id, some v1, "High"⟩ : FilledVal))] := by
    rw [hS1, hT1, h1, hS0]
    rfl
  have hcomp2 : st2.completed = [(id, (⟨id, some v2, "Low"⟩ : FilledVal))] := by
    rw [hS2, hT2, h2]
    simp [hcomp1, mapSet]
  have hat1 : st1.attemptCount = 1 := by rw [hS1, hT1, h1, hat0]
  have hat2 : st2.attemptCount = 2 := by rw [hS2, hT2, h2, hat1]
  have hpair : processCalls 5 st0 [t1, t2] = st2 := by
    rw [processCalls_pair 5 st0 t1 t2 hb1]
  have hstep1 := loopGo_step_calls_ok 15 5 300000 transport clock 15 0 st0
    (.native "" [⟨i1, "fill_field", .argObj (.jobj [("field_id", .jstr id),
        ("value", .jstr v1), ("confidence", .jstr "High")])⟩,
      ⟨i2, "fill_field", .argObj (.jobj [("field_id", .jstr id),
        ("value", .jstr v2), ("confidence", .jstr "Low")])⟩])
    (.text "done") t1 [t2] (by rw [hat0]; decide) (by omega) rfl
    (by rw [show (0 + 1 : Nat) = 1 from rfl, ht])
  rw [hpair] at hstep1
  have hstep2 := loopGo_step_noCalls 15 5 300000 transport clock 14 1 st2
    (.text "done") (by rw [hat2]; decide) (by omega) rfl
  rw [show (14 + 1 : Nat) = 15 from rfl] at hstep2
  rw [hstep2] at hstep1
  have hfin := handleAgentResponse_finished (mkToolsState resume fields)
    (.native "" [⟨i1, "fill_field", .argObj (.jobj [("field_id", .jstr id),
        ("value", .jstr v1), ("confidence", .jstr "High")])⟩,
      ⟨i2, "fill_field", .argObj (.jobj [("field_id", .jstr id),
        ("value", .jstr v2), ("confidence", .jstr "Low")])⟩])
    conv defaultOptions transport clock _ hstep1
  rw [hfin]
  simp [hcomp2]

/-- Witness for C4 on a concrete one-field registry. -/
theorem C4_last_write_wins_witness :
    (handleAgentResponse (mkToolsState "r" [⟨"f1", "L", "text", false, ""⟩])
        (.native "" [⟨"a", "fill_field", .argObj (.jobj [("field_id", .jstr "f1"),
            ("value", .jstr "x"), ("confidence", .jstr "High")])⟩,
          ⟨"b", "fill_field", .argObj (.jobj [("field_id", .jstr "f1"),
            ("value", .jstr "y"), ("confidence", .jstr "Low")])⟩])
        [] defaultOptions (fun _ => .ok (.text "done")) (fun _ => 0)).1.fields =
      [⟨"f1", some "y", "Low"⟩] :=
  C4_last_write_wins "r" [⟨"f1", "L", "text", false, ""⟩] [] "a" "b" "f1" "x" "y"
    (fun _ => .ok (.text "done")) (fun _ => 0) (by decide) (by decide) rfl
    (by decide) (by decide)

theorem processCall_gnf_attempt (m : Nat) (st : LoopState) (cid : Option String) :
    (processCall m st ⟨cid, "get_next_field", .jobj []⟩).1.attemptCount =
      st.attemptCount + 1 := by
  simp only [processCall, executeTool, argsOrEmpty]
  simp
  split <;> rfl

/-- With `maxAttempts = 3` and a transport that always answers with a single
`get_next_field` call, the loop runs until `attemptCount` reaches 3 and
finishes normally. -/
theorem loopGo_gnf (transport : Nat → Except String AgentResponse) (clock : Nat → Nat)
    (gid : String)
    (ht : ∀ k, transport k = .ok (.native "" [⟨gid, "get_next_field", .argAbsent⟩]))
    (hc : ∀ k, clock k ≤ 300000) :
    ∀ (fuel k : Nat) (st : LoopState), 3 ≤ st.attemptCount + fuel →
      (loopGo 3 5 300000 transport clock fuel k st
          (.native "" [⟨gid, "get_next_field", .argAbsent⟩])).1.attemptCount =
        max st.attemptCount 3 ∧
      (loopGo 3 5 300000 transport clock fuel k st
          (.native "" [⟨gid, "get_next_field", .argAbsent⟩])).2 = .finished := by
  intro fuel
  induction fuel with
  | zero =>
    intro k st hfuel
    exact ⟨(by omega : st.attemptCount = max st.attemptCount 3), rfl⟩
  | succ fuel ih =>
    intro k st hfuel
    by_cases hA : st.attemptCount < 3
    · have hstep := loopGo_step_calls_ok 3 5 300000 transport clock fuel k st
        (.native "" [⟨gid, "get_next_field", .argAbsent⟩])
        (.native "" [⟨gid, "get_next_field", .argAbsent⟩])
        ⟨some gid, "get_next_field", .jobj []⟩ [] hA
        (by have := hc k; omega) rfl (ht (k + 1))
      rw [hstep, processCalls_single]
      have hpa := processCall_gnf_attempt 5 st (some gid)
      obtain ⟨ha, hb⟩ := ih (k + 1)
        (processCall 5 st ⟨some gid, "get_next_field", .jobj []⟩).1 (by omega)
      exact ⟨by rw [ha, hpa]; omega, hb⟩
    · rw [loopGo_exit 3 5 300000 transport clock fuel k st _ hA]
      exact ⟨(by omega : st.attemptCount = max st.attemptCount 3), rfl⟩

/-- The concrete budget-termination run: with `maxAttempts = 3` and a
model that always returns exactly one valid `get_next_field` call per
response, the dispatch loop finishes normally with `attemptCount = 3` and
the caller's result has `error: false`. -/
theorem gnfBudget_run (resume : String) (fields : List FormField) (gid : String)
    (transport : Nat → Except String AgentResponse) (clock : Nat → Nat)
    (ht : ∀ k, transport k = .ok (.native "" [⟨gid, "get_next_field", .argAbsent⟩]))
    (hc : ∀ k, clock k ≤ 300000) :
    (loopGo 3 5 300000 transport clock 4 0
        ⟨mkToolsState resume fields, 0, 0, [], [], []⟩
        (.native "" [⟨gid, "get_next_field", .argAbsent⟩])).1.attemptCount = 3 ∧
    (loopGo 3 5 300000 transport clock 4 0
        ⟨mkToolsState resume fields, 0, 0, [], [], []⟩
        (.native "" [⟨gid, "get_next_field", .argAbsent⟩])).2 = .finished ∧
    (handleAgentResponse (mkToolsState resume fields)
        (.native "" [⟨gid, "get_next_field", .argAbsent⟩])
        [] ⟨some 3, none, none⟩ transport clock).1.error = false := by
  obtain ⟨h1, h2⟩ := loopGo_gnf transport clock gid ht hc 4 0
    ⟨mkToolsState resume fields, 0, 0, [], [], []⟩ (by omega)
  refine ⟨by rw [h1]; rfl, h2, ?_⟩
  have hpair : loopGo 3 5 300000 transport clock 4 0
      ⟨mkToolsState resume fields, 0, 0, [], [], []⟩
      (.native "" [⟨gid, "get_next_field", .argAbsent⟩]) =
      ((loopGo 3 5 300000 transport clock 4 0
        ⟨mkToolsState resume fields, 0, 0, [], [], []⟩
        (.native "" [⟨gid, "get_next_field", .argAbsent⟩])).1, .finished) := by
    rw [← h2]
  have hfin := handleAgentResponse_finished (mkToolsState resume fields)
    (.native "" [⟨gid, "get_next_field", .argAbsent⟩]) [] ⟨some 3, none, none⟩
    transport clock _ hpair
  rw [hfin]

theorem runToolBasedAgent_initial_error (isM : Bool) (ts : ToolsState) (opts : RunOptions)
    (transport : Nat → Except String AgentResponse) (clock : Nat → Nat) (msg : String)
    (h : transport 0 = .error msg) :
    runToolBasedAgent isM ts opts transport clock =
      ⟨ts.completedFields, "Error running form filling agent: " ++ msg, true⟩ := by
  unfold runToolBasedAgent
  rw [h]

/-- A transport failure right after one dispatched `fill_field` ends the
run at once, returning the partial fields with `error: false`. -/
theorem handleAgentResponse_midrun_error (resume : String) (fields : List FormField)
    (conv : List Msg) (cid id v msg : String)
    (transport : Nat → Except String AgentResponse) (clock : Nat → Nat)
    (hid : id ≠ "") (htr : transport 1 = .error msg) (hc0 : clock 0 ≤ 300000) :
    (handleAgentResponse (mkToolsState resume fields)
        (.native "" [⟨cid, "fill_field", .argObj (.jobj [("field_id", .jstr id),
            ("value", .jstr v), ("confidence", .jstr "High")])⟩])
        conv defaultOptions transport clock).1 =
      ⟨[⟨id, some v, "High"⟩], summaryLine 1 fields.length, false⟩ := by
  set st0 : LoopState := ⟨mkToolsState resume fields, 0, 0, [], [], conv⟩ with hS0
  set t1 : ToolCall := ⟨some cid, "fill_field", .jobj [("field_id", .jstr id),
    ("value", .jstr v), ("confidence", .jstr "High")]⟩ with hT1
  have key : (processCall 5 st0 t1).1.completed = [(id, (⟨id, some v, "High"⟩ : FilledVal))] ∧
      (processCall 5 st0 t1).1.ts.formFields = fields := by
    cases hf : fields.find? (fun f => f.id == id) with
    | none =>
      have hm := processCall_fill_missing 5 st0 (some cid) id v "High" hid (by decide)
        (by
          intro f hfm
          have := List.find?_eq_none.mp hf f hfm
          simpa using this)
      rw [hT1, hm]
      constructor
      · rw [hS0]
        rfl
      · rfl
    | some f =>
      have hm := processCall_fill_found 5 st0 (some cid) id v "High" f hid (by decide) hf
      rw [hT1, hm]
      constructor
      · rw [hS0]
        rfl
      · rfl
  have hat0 : st0.attemptCount = 0 := by rw [hS0]
  have hstep := loopGo_step_calls_err 15 5 300000 transport clock 15 0 st0
    (.native "" [⟨cid, "fill_field", .argObj (.jobj [("field_id", .jstr id),
        ("value", .jstr v), ("confidence", .jstr "High")])⟩])
    t1 [] msg (by rw [hat0]; decide) (by omega) rfl
    (by rw [show (0 + 1 : Nat) = 1 from rfl, htr])
  rw [processCalls_single] at hstep
  have hfin := handleAgentResponse_finished (mkToolsState resume fields)
    (.native "" [⟨cid, "fill_field", .argObj (.jobj [("field_id", .jstr id),
        ("value", .jstr v), ("confidence", .jstr "High")])⟩])
    conv defaultOptions transport clock _ hstep
  rw [hfin]
  simp [key.1, key.2]

/-- **C7, amended.**  The caller always receives a *returned* result object
— no exception propagates out of `runToolBasedAgent`.  A transport failure
on the initial request is caught and returned as the class-level
`completedFields` together with an error-message summary (which carries no
`filled/total` fraction) and `error: true`; a transport failure mid-run
terminates the run immediately and returns the partial `completedFields`
accumulated so far with the usual fraction summary and `error: false`. -/
theorem C7_transport_failure_behavior :
    (∀ (isM : Bool) (ts : ToolsState) (opts : RunOptions)
        (transport : Nat → Except String AgentResponse) (clock : Nat → Nat) (msg : String),
        transport 0 = .error msg →
        runToolBasedAgent isM ts opts transport clock =
          ⟨ts.completedFields, "Error running form filling agent: " ++ msg, true⟩) ∧
    (∀ (resume : String) (fields : List FormField) (conv : List Msg) (cid id v msg : String)
        (transport : Nat → Except String AgentResponse) (clock : Nat → Nat),
        id ≠ "" → transport 1 = .error msg → clock 0 ≤ 300000 →
        (handleAgentResponse (mkToolsState resume fields)
            (.native "" [⟨cid, "fill_field", .argObj (.jobj [("field_id", .jstr id),
                ("value", .jstr v), ("confidence", .jstr "High")])⟩])
            conv defaultOptions transport clock).1 =
          ⟨[⟨id, some v, "High"⟩], summaryLine 1 fields.length, false⟩) :=
  ⟨fun isM ts opts transport clock msg h =>
      runToolBasedAgent_initial_error isM ts opts transport clock msg h,
   fun resume fields conv cid id v msg transport clock hid htr hc0 =>
      handleAgentResponse_midrun_error resume fields conv cid id v msg transport clock hid htr hc0⟩

/-- Witness for C7's amended theorem: a failing initial transport and a
transport failing right after one successful fill. -/
theorem C7_transport_failure_behavior_witness :
    runToolBasedAgent false (mkToolsState "r" [⟨"f1", "L", "text", false, ""⟩]) defaultOptions
        (fun _ => .error "net down") (fun _ => 0) =
      ⟨[], "Error running form filling agent: net down", true⟩ ∧
    (handleAgentResponse (mkToolsState "r" [⟨"f1", "L", "text", false, ""⟩])
        (.native "" [⟨"c1", "fill_field", .argObj (.jobj [("field_id", .jstr "f1"),
            ("value", .jstr "x"), ("confidence", .jstr "High")])⟩])
        [] defaultOptions (fun _ => .error "net down") (fun _ => 0)).1 =
      ⟨[⟨"f1", some "x", "High"⟩], summaryLine 1 1, false⟩ :=
  ⟨C7_transport_failure_behavior.1 false (mkToolsState "r" [⟨"f1", "L", "text", false, ""⟩])
     defaultOptions (fun _ => .error "net down") (fun _ => 0) "net down" rfl,
   C7_transport_failure_behavior.2 "r" [⟨"f1", "L", "text", false, ""⟩] [] "c1" "f1" "x"
     "net down" (fun _ => .error "net down") (fun _ => 0) (by decide) rfl (by decide)⟩

/-- **C9.**  When the direct case-insensitive search finds no line and the
related-term fallback also finds none, `searchResume` returns (not throws)
a result whose `matches` list is exactly the single sentinel
`{text: "No matches found", confidence: "Low"}`. -/
theorem C9_search_sentinel (ts : ToolsState) (q : String)
    (hd : ∀ line ∈ splitNl ts.resumeContent, regexTestCI q line = false)
    (hr : ∀ t ∈ getRelatedTerms q, ∀ line ∈ splitNl ts.resumeContent, regexTestCI t line = false) :
    searchResume ts (some q) =
      .jobj [("query", .jstr q),
             ("matches", .jarr [.jobj [("text", .jstr "No matches found"),
               ("confidence", .jstr "Low")]])] := by
  have hline : ∀ i, i < (splitNl ts.resumeContent).length →
      (splitNl ts.resumeContent).getD i "" ∈ splitNl ts.resumeContent := by
    intro i hi
    rw [List.getD_eq_getElem _ _ hi]
    exact List.getElem_mem _
  have hdirect : (List.range (splitNl ts.resumeContent).length).filterMap (fun i =>
      if regexTestCI ((some q).getD "undefined") ((splitNl ts.resumeContent).getD i "") then
        some (JVal.jobj [("text", .jstr (contextSlice (splitNl ts.resumeContent) i)),
          ("confidence", .jstr "Medium")])
      else none) = [] := by
    rw [List.filterMap_eq_nil_iff]
    intro i hi
    rw [List.mem_range] at hi
    simpa using hd _ (hline i hi)
  have hrel : (getRelatedTerms ((some q).getD "undefined")).filterMap (fun t =>
      ((splitNl ts.resumeContent).find? (fun l => regexTestCI t l)).map (fun l =>
        JVal.jobj [("text", .jstr l), ("confidence", .jstr "Low")])) = [] := by
    rw [List.filterMap_eq_nil_iff]
    intro t htm
    have hnone : (splitNl ts.resumeContent).find? (fun l => regexTestCI t l) = none := by
      rw [List.find?_eq_none]
      intro l hl
      simp [hr t (by simpa using htm) l hl]
    simp [hnone]
  simp only [searchResume]
  rw [hdirect, hrel]
  simp

/-- Witness for C9: `search("xylophone")` against a resume with no such
term (and none of the related fallback terms) yields the sentinel.  Note
the fallback terms for "xylophone" are the phone synonyms, because
`"xylophone".includes("phone")` holds — the embedded `getRelatedTerms`
reproduces this. -/
theorem C9_search_sentinel_witness :
    searchResume (mkToolsState "Jane Doe\njane@x.com" []) (some "xylophone") =
      .jobj [("query", .jstr "xylophone"),
             ("matches", .jarr [.jobj [("text", .jstr "No matches found"),
               ("confidence", .jstr "Low")]])] :=
  C9_search_sentinel (mkToolsState "Jane Doe\njane@x.com" []) "xylophone"
    (by decide) (by decide)

theorem parseArgs_some_mem (t a : String) (x : JVal) (h : parseArgs t a = some x) :
    t ∈ validTools := by
  by_cases hc : t ∈ validTools
  · exact hc
  · have hfalse : validTools.contains t = false := by
      rw [← Bool.not_eq_true]
      intro hcontains
      exact hc (List.mem_of_elem_eq_true hcontains)
    rw [parseArgs, hfalse] at h
    simp at h

theorem jsonActionStage_valid (text : Chars) (calls : List ToolCall)
    (h : jsonActionStage text = some calls) :
    ∀ tc ∈ calls, tc.tool ∈ validTools := by
  intro tc htc
  unfold jsonActionStage at h
  split at h
  · exact absurd h (by simp)
  · split at h
    · exact absurd h (by simp)
    · split at h
      · split at h
        · split_ifs at h with hcond
          obtain rfl := Option.some.inj h
          simp at htc
          subst htc
          simp only [ToolCall.tool]
          have := hcond
          simp only [Bool.and_eq_true, ne_eq, decide_eq_true_eq] at this
          exact List.mem_of_elem_eq_true this.2
        · exact absurd h (by simp)
      · exact absurd h (by simp)

theorem toolBlockStage_valid (text : Chars) :
    ∀ tc ∈ toolBlockStage text, tc.tool ∈ validTools := by
  intro tc htc
  unfold toolBlockStage at htc
  rw [List.mem_filterMap] at htc
  obtain ⟨nm, _, hnm⟩ := htc
  by_cases hcont : validTools.contains
      (charsStr (removeFirstChar backslashChar (trimC (strChars nm.1)))) = true
  · simp only [hcont, if_true] at hnm
    obtain rfl := Option.some.inj hnm
    exact List.mem_of_elem_eq_true hcont
  · rw [Bool.not_eq_true] at hcont
    simp only [hcont] at hnm
    simp at hnm

theorem directStage_valid (text : Chars) :
    ∀ tc ∈ directStage text, tc.tool ∈ validTools := by
  intro tc htc
  unfold directStage at htc
  rw [List.mem_filterMap] at htc
  obtain ⟨ta, _, hta⟩ := htc
  rw [Option.map_eq_some'] at hta
  obtain ⟨args, hp, hback⟩ := hta
  subst hback
  exact parseArgs_some_mem _ _ _ hp

theorem addCodeBlockCalls_inner_valid (pairs : List (String × String)) :
    ∀ acc : List ToolCall, (∀ tc ∈ acc, tc.tool ∈ validTools) →
      ∀ tc ∈ pairs.foldl (fun acc ta =>
          match parseArgs (trimS ta.1) (trimS ta.2) with
          | some args =>
            if acc.any (fun tc =>
                tc.tool = trimS ta.1 && jsonStringify tc.args = jsonStringify args) then acc
            else acc ++ [⟨none, trimS ta.1, args⟩]
          | none => acc) acc,
        tc.tool ∈ validTools := by
  induction pairs with
  | nil => intro acc hacc tc htc; exact hacc tc htc
  | cons ta rest ih =>
    intro acc hacc tc htc
    rw [List.foldl_cons] at htc
    refine ih _ ?_ tc htc
    intro tc' htc'
    split at htc'
    · split at htc'
      · exact hacc tc' htc'
      · rw [List.mem_append] at htc'
        rcases htc' with hin | hnew
        · exact hacc tc' hin
        · simp at hnew
          subst hnew
          exact parseArgs_some_mem _ _ _ (by assumption)
    · exact hacc tc' htc'

theorem addCodeBlockCalls_valid (text : Chars) (acc : List ToolCall)
    (hacc : ∀ tc ∈ acc, tc.tool ∈ validTools) :
    ∀ tc ∈ addCodeBlockCalls text acc, tc.tool ∈ validTools := by
  unfold addCodeBlockCalls
  induction codeBlockScan text generalizing acc with
  | nil => intro tc htc; exact hacc tc htc
  | cons b rest ih =>
    intro tc htc
    rw [List.foldl_cons] at htc
    exact ih _ (addCodeBlockCalls_inner_valid (directCallScan b) acc hacc) tc htc

theorem fallbackStage_valid (s : String) (calls : List ToolCall)
    (h : fallbackStage s = .ok calls) :
    ∀ tc ∈ calls, tc.tool ∈ validTools := by
  intro tc htc
  unfold fallbackStage at h
  split_ifs at h
  all_goals (cases h <;> simp_all <;> decide)

/-- Every tool call an `.ok` text-parse emits names one of the eight known
tools: unknown names are dropped at parse time on every textual path. -/
theorem extractFromText_valid (s : String) (calls : List ToolCall)
    (h : extractFromText s = .ok calls) :
    ∀ tc ∈ calls, tc.tool ∈ validTools := by
  intro tc htc
  simp only [extractFromText] at h
  split at h
  case _ l hja =>
    obtain rfl := Except.ok.inj h
    exact jsonActionStage_valid _ _ hja tc htc
  case _ hja =>
    split_ifs at h with h1 h2
    all_goals first
      | exact fallbackStage_valid s calls h tc htc
      | (obtain rfl := Except.ok.inj h
         exact addCodeBlockCalls_valid _ _ (directStage_valid (strChars s)) tc htc)
      | (obtain rfl := Except.ok.inj h
         exact toolBlockStage_valid _ tc htc)

theorem executeTool_unknown (ts : ToolsState) (name : String) (args : JVal)
    (h : name ∉ validTools) :
    executeTool ts name args = (.error ("Unknown tool: " ++ name), ts) := by
  have h1 : name ≠ "analyze_resume" := by rintro rfl; exact h (by decide)
  have h2 : name ≠ "get_resume_section" := by rintro rfl; exact h (by decide)
  have h3 : name ≠ "get_next_field" := by rintro rfl; exact h (by decide)
  have h4 : name ≠ "check_field" := by rintro rfl; exact h (by decide)
  have h5 : name ≠ "fill_field" := by rintro rfl; exact h (by decide)
  have h6 : name ≠ "list_fields" := by rintro rfl; exact h (by decide)
  have h7 : name ≠ "search_resume" := by rintro rfl; exact h (by decide)
  have h8 : name ≠ "save_progress" := by rintro rfl; exact h (by decide)
  simp [executeTool, h1, h2, h3, h4, h5, h6, h7, h8]

theorem processCall_unknown_tool (m : Nat) (st : LoopState) (cid : Option String)
    (name : String) (hname : name ∉ validTools) :
    (processCall m st ⟨cid, name, .jobj []⟩).1.consecutiveErrorCount =
      st.consecutiveErrorCount + 1 ∧
    (processCall m st ⟨cid, name, .jobj []⟩).1.conversation =
      st.conversation ++
        [Msg.assistant ("Error when using " ++ name ++ ": " ++ ("Unknown tool: " ++ name) ++ ".")] ∧
    (processCall m st ⟨cid, name, .jobj []⟩).1.attemptCount = st.attemptCount + 1 := by
  have hexe := executeTool_unknown st.ts name (argsOrEmpty (JVal.jobj [])) hname
  have hff : name ≠ "fill_field" := by rintro rfl; exact hname (by decide)
  simp only [processCall, hexe]
  simp [hff]

/-- **C8, amended.**  On the textual shapes the parser does drop unknown
tool names silently: every call an `.ok` text-parse emits names one of the
eight known tools.  The native structured path, however, performs *no*
name filtering: an unknown name is emitted unchanged, and dispatching it
throws `Unknown tool: …`, which is surfaced as an assistant error message
in the conversation and increments `consecutiveErrorCount`. -/
theorem C8_unknown_tool_policy :
    (∀ (s : String) (calls : List ToolCall), extractFromText s = .ok calls →
        ∀ tc ∈ calls, tc.tool ∈ validTools) ∧
    (∀ (content cid name : String) (m : Nat) (st : LoopState),
        name ≠ "" → name ∉ validTools →
        extractToolCalls (.native content [⟨cid, name, .argAbsent⟩]) =
          .ok [⟨some cid, name, .jobj []⟩] ∧
        (processCall m st ⟨some cid, name, .jobj []⟩).1.consecutiveErrorCount =
          st.consecutiveErrorCount + 1 ∧
        (processCall m st ⟨some cid, name, .jobj []⟩).1.conversation =
          st.conversation ++
            [Msg.assistant ("Error when using " ++ name ++ ": " ++ ("Unknown tool: " ++ name) ++ ".")]) := by
  constructor
  · exact extractFromText_valid
  · intro content cid name m st hname hmem
    refine ⟨?_, (processCall_unknown_tool m st (some cid) name hmem).1,
      (processCall_unknown_tool m st (some cid) name hmem).2.1⟩
    simp [extractToolCalls, extractNative, hname]

/-- Witness for C8's amended theorem at the unknown name `made_up_tool`. -/
theorem C8_unknown_tool_policy_witness :
    extractToolCalls (.native "" [⟨"b2", "made_up_tool", .argAbsent⟩]) =
      .ok [⟨some "b2", "made_up_tool", .jobj []⟩] ∧
    (processCall 5 ⟨mkToolsState "r" [], 0, 0, [], [], []⟩
        ⟨some "b2", "made_up_tool", .jobj []⟩).1.consecutiveErrorCount = 1 :=
  ⟨(C8_unknown_tool_policy.2 "" "b2" "made_up_tool" 5 ⟨mkToolsState "r" [], 0, 0, [], [], []⟩
      (by decide) (by decide)).1,
   (C8_unknown_tool_policy.2 "" "b2" "made_up_tool" 5 ⟨mkToolsState "r" [], 0, 0, [], [], []⟩
      (by decide) (by decide)).2.1⟩

/-- A failing dispatch whose increment reaches the consecutive-error
threshold sets the inner loop's break flag. -/
theorem processCall_unknown_flag (m : Nat) (st : LoopState) (cid : Option String)
    (name : String) (hname : name ∉ validTools) (hm : m ≤ st.consecutiveErrorCount + 1) :
    (processCall m st ⟨cid, name, .jobj []⟩).2 = true := by
  have hexe := executeTool_unknown st.ts name (argsOrEmpty (JVal.jobj [])) hname
  have hff : name ≠ "fill_field" := by rintro rfl; exact hname (by decide)
  simp only [processCall, hexe]
  simp [hff, hm]

/-- The consecutive-error check runs right after the failing call, inside
the batch: once the incremented counter reaches the threshold, the
remaining calls of the same response are never dispatched. -/
theorem processCalls_error_break (m : Nat) (st : LoopState) (cid : Option String)
    (name : String) (rest : List ToolCall)
    (hname : name ∉ validTools) (hm : m ≤ st.consecutiveErrorCount + 1) :
    processCalls m st (⟨cid, name, .jobj []⟩ :: rest) =
      (processCall m st ⟨cid, name, .jobj []⟩).1 := by
  have hflag := processCall_unknown_flag m st cid name hname hm
  show (if (processCall m st ⟨cid, name, .jobj []⟩).2 = true then
          (processCall m st ⟨cid, name, .jobj []⟩).1
        else processCalls m (processCall m st ⟨cid, name, .jobj []⟩).1 rest) =
      (processCall m st ⟨cid, name, .jobj []⟩).1
  rw [hflag]
  simp

/-- **C6, amended.**  The attempt and wall-clock budgets are evaluated
once per model response, at the top of the `while` loop, not after each
individual call (`C6_budget_not_per_call_cex`).  The consecutive-error
budget, by contrast, is enforced per call: each failing call increments
`consecutiveErrorCount` and the threshold is checked immediately inside
the dispatch loop, short-circuiting the remaining calls of that batch
(part 1: once the incremented counter reaches `maxConsecutiveErrors`, the
batch's remaining calls are never dispatched).  The concrete termination
scenario holds (part 2): with `maxAttempts = 3` and a model that always
returns exactly one valid `get_next_field` call per response, the loop
dispatches exactly 3 tool calls, finishes on the attempt budget, and the
caller receives `error: false`. -/
theorem C6_budget_termination :
    (∀ (m : Nat) (st : LoopState) (cid : Option String) (name : String)
        (rest : List ToolCall), name ∉ validTools → m ≤ st.consecutiveErrorCount + 1 →
        processCalls m st (⟨cid, name, .jobj []⟩ :: rest) =
          (processCall m st ⟨cid, name, .jobj []⟩).1 ∧
        (processCall m st ⟨cid, name, .jobj []⟩).1.consecutiveErrorCount =
          st.consecutiveErrorCount + 1) ∧
    (∀ (resume : String) (fields : List FormField) (gid : String)
        (transport : Nat → Except String AgentResponse) (clock : Nat → Nat),
        (∀ k, transport k = .ok (.native "" [⟨gid, "get_next_field", .argAbsent⟩])) →
        (∀ k, clock k ≤ 300000) →
        (loopGo 3 5 300000 transport clock 4 0
            ⟨mkToolsState resume fields, 0, 0, [], [], []⟩
            (.native "" [⟨gid, "get_next_field", .argAbsent⟩])).1.attemptCount = 3 ∧
        (loopGo 3 5 300000 transport clock 4 0
            ⟨mkToolsState resume fields, 0, 0, [], [], []⟩
            (.native "" [⟨gid, "get_next_field", .argAbsent⟩])).2 = .finished ∧
        (handleAgentResponse (mkToolsState resume fields)
            (.native "" [⟨gid, "get_next_field", .argAbsent⟩])
            [] ⟨some 3, none, none⟩ transport clock).1.error = false) :=
  ⟨fun m st cid name rest hname hm =>
      ⟨processCalls_error_break m st cid name rest hname hm,
       (processCall_unknown_tool m st cid name hname).1⟩,
   fun resume fields gid transport clock ht hc =>
      gnfBudget_run resume fields gid transport clock ht hc⟩

/-- Witness for C6's amended theorem: a failing call at the threshold
short-circuits its batch, and the concrete `get_next_field` run stops at
3 attempts with `error: false`. -/
theorem C6_budget_termination_witness :
    processCalls 1 ⟨mkToolsState "r" [], 0, 0, [], [], []⟩
        [⟨some "z1", "bogus_tool", .jobj []⟩, ⟨some "z2", "get_next_field", .jobj []⟩] =
      (processCall 1 ⟨mkToolsState "r" [], 0, 0, [], [], []⟩
        ⟨some "z1", "bogus_tool", .jobj []⟩).1 ∧
    (loopGo 3 5 300000 (fun _ => .ok (.native "" [⟨"g", "get_next_field", .argAbsent⟩]))
        (fun _ => 0) 4 0 ⟨mkToolsState "r" [], 0, 0, [], [], []⟩
        (.native "" [⟨"g", "get_next_field", .argAbsent⟩])).1.attemptCount = 3 ∧
    (handleAgentResponse (mkToolsState "r" [])
        (.native "" [⟨"g", "get_next_field", .argAbsent⟩]) [] ⟨some 3, none, none⟩
        (fun _ => .ok (.native "" [⟨"g", "get_next_field", .argAbsent⟩]))
        (fun _ => 0)).1.error = false := by
  have h1 := C6_budget_termination.1 1 ⟨mkToolsState "r" [], 0, 0, [], [], []⟩
    (some "z1") "bogus_tool" [⟨some "z2", "get_next_field", .jobj []⟩]
    (by decide) (by decide)
  have h2 := C6_budget_termination.2 "r" [] "g"
    (fun _ => .ok (.native "" [⟨"g", "get_next_field", .argAbsent⟩])) (fun _ => 0)
    (fun _ => rfl) (fun _ => Nat.zero_le _)
  exact ⟨h1.1, h2.1, h2.2.2⟩

end AppFiller
